import Mathlib

/-!
# Verification of the yanshu-imgbed storage distribution and resolution core

A shallow embedding, in Lean 4, of the storage core of the `yanshu-imgbed`
image-hosting gateway (Go): the data model (`database/models.go`), the
deduplication/ingest coordinator (`service/image_service.go`:
`UploadImage`, `handleNewImage`, `handleDuplicateImage`, `handleSharedImage`,
`distributeToBackends`, `DeleteImage`, `GetHealthyStorageLocation`,
`ListImages`, `parseUploadResult`) and the uploader layer
(`storage/oss.go`, the local uploader, the SM.MS uploader).

Modelling conventions:
* The relational store is a `DBState`: lists of rows plus auto-increment
  counters.  GORM queries become list filters/finds; `First` is the first
  matching row in table order.
* Network and filesystem effects are oracles passed as function arguments
  (per-backend upload outcomes, health-probe verdicts, the registered
  uploader map).  Physical side effects (uploads attempted, deletions
  issued) are returned explicitly so theorems can speak about them.
* Go's concurrent fan-out (`sync.WaitGroup` + goroutines) is modelled as a
  sequential fold over the target list; the properties proved here do not
  depend on the interleaving, only on the set of rows/effects produced.
* Go `int` fields that are non-negative by construction (failure counters,
  the retry-count setting) are modelled as `Nat`; `Priority` stays `Int`.
-/

namespace Imgbed

/-- `database.Backend` (src/database/models.go): a configured storage target. -/
structure Backend where
  id : Nat
  name : String
  type : String
  priority : Int
  allowUpload : Bool
  allowRedirect : Bool
deriving Repr, DecidableEq

/-- `database.Image` (src/database/models.go): a logical artifact. -/
structure Image where
  id : Nat
  uuid : String
  md5 : String
  originalFilename : String
  fileSize : Int
  contentType : String
  width : Int
  height : Int
  allowRandom : Bool
  userID : Nat
deriving Repr, DecidableEq

/-- `database.StorageLocation` (src/database/models.go): one physical copy of
an Image's bytes on one Backend. -/
structure StorageLocation where
  id : Nat
  imageID : Nat
  backendID : Nat
  storageType : String
  url : String
  deleteIdentifier : String
  isActive : Bool
  failureCount : Nat
deriving Repr, DecidableEq

/-- Decidable equality of Go-style `(value, error)` results, used to evaluate
the embedding at concrete inputs. -/
instance {α β : Type} [DecidableEq α] [DecidableEq β] : DecidableEq (Except α β) :=
  fun a b =>
    match a, b with
    | .error x, .error y =>
      if h : x = y then isTrue (by rw [h]) else isFalse (by simp [h])
    | .ok x, .ok y =>
      if h : x = y then isTrue (by rw [h]) else isFalse (by simp [h])
    | .error _, .ok _ => isFalse (by simp)
    | .ok _, .error _ => isFalse (by simp)

/-- The relational store: the `images` and `storage_locations` tables in row
order, plus the auto-increment primary-key counters. -/
structure DBState where
  images : List Image
  locations : List StorageLocation
  nextImageID : Nat
  nextLocationID : Nat
deriving Repr, DecidableEq

/-- Primary keys already handed out are below the auto-increment counters. -/
def DBState.wf (db : DBState) : Prop :=
  (∀ i ∈ db.images, i.id < db.nextImageID) ∧
  (∀ l ∈ db.locations, l.imageID < db.nextImageID ∧ l.id < db.nextLocationID)

instance (db : DBState) : Decidable db.wf := by
  unfold DBState.wf; infer_instance

/-- The storage locations of one image (GORM's `Preload("StorageLocations")`
association of an `Image` row). -/
def locsOf (db : DBState) (imageID : Nat) : List StorageLocation :=
  db.locations.filter (fun l => l.imageID == imageID)

/-- Insert admissibility of an `Image` row under the schema declared in
src/database/models.go: `UUID` carries a `uniqueIndex` and `MD5` carries a
`uniqueIndex` — a *global* unique index on the content hash alone. -/
def imageInsertAllowed (db : DBState) (img : Image) : Bool :=
  db.images.all (fun i => i.uuid != img.uuid) &&
    db.images.all (fun i => i.md5 != img.md5)

/-- Modelled from the spec: the composite unique constraint on
(content hash, owner) that the spec (§3 Image invariant, §6 persistence
contract) requires of the persistence layer, and that the service code's own
comment asserts ("This will now succeed due to the composite unique index",
src/unnamed/part_006 line 222).  This index declaration is missing from the
`Image` model in src/database/models.go, which instead declares the global
`MD5` unique index captured by `imageInsertAllowed`. -/
def imageInsertAllowedSpec (db : DBState) (img : Image) : Bool :=
  db.images.all (fun i => !(i.md5 == img.md5 && i.userID == img.userID)) &&
    db.images.all (fun i => i.uuid != img.uuid)

/-! ## String utilities

`strings.Split(s, "@@@")` (Go), scanning for the first occurrence of the
separator and cutting around each non-overlapping instance left to right,
specialised to the `"@@@"` separator used by `parseUploadResult`. -/

/-- One pass of Go's `strings.Split(s, "@@@")`: `acc` holds (reversed) the
characters scanned since the last cut; at each position the scanner checks
whether the separator starts there. -/
def splitAtsAux : List Char → List Char → List (List Char)
  | [], acc => [acc.reverse]
  | c1 :: c2 :: c3 :: rest3, acc =>
    if c1 == '@' && c2 == '@' && c3 == '@' then acc.reverse :: splitAtsAux rest3 []
    else splitAtsAux (c2 :: c3 :: rest3) (c1 :: acc)
  | c1 :: rest, acc => splitAtsAux rest (c1 :: acc)

/-- Go's `strings.Split(s, "@@@")`. -/
def goSplitAts (s : String) : List String :=
  (splitAtsAux s.toList []).map List.asString

/-- Whether `"@@@"` occurs in the character list. -/
def hasAtsRun : List Char → Bool
  | [] => false
  | c1 :: c2 :: c3 :: rest3 =>
    if c1 == '@' && c2 == '@' && c3 == '@' then true
    else hasAtsRun (c2 :: c3 :: rest3)
  | _ :: rest => hasAtsRun rest

/-- The characters strictly before the first occurrence of `"@@@"` (the whole
list when there is none). -/
def takeUntilAts : List Char → List Char
  | [] => []
  | c1 :: c2 :: c3 :: rest3 =>
    if c1 == '@' && c2 == '@' && c3 == '@' then []
    else c1 :: takeUntilAts (c2 :: c3 :: rest3)
  | c1 :: rest => c1 :: takeUntilAts rest

/-- Generic substring test (the semantics of Go's `strings.Contains`, used to
model the SQL `LIKE '%kw%'` filter and to state separator-freeness). -/
def listContainsSub : List Char → List Char → Bool
  | [], sub => sub.isEmpty
  | s@(_ :: rest), sub => sub.isPrefixOf s || listContainsSub rest sub

/-- Substring test on strings. -/
def containsSub (s sub : String) : Bool :=
  listContainsSub s.toList sub.toList

/-- Go's `strings.TrimPrefix(p, "/")`: removes one leading `/` if present. -/
def trimLeadingSlash (p : String) : String :=
  match p.toList with
  | '/' :: rest => rest.asString
  | _ => p

/-- The remainder after the first occurrence of `"://"`, if any. -/
def afterSchemeSep : List Char → Option (List Char)
  | ':' :: '/' :: '/' :: rest => some rest
  | _ :: rest => afterSchemeSep rest
  | [] => none

/-- The `Path` component as Go's `net/url.Parse` computes it for the URL
shapes this system stores: fragment (`#`) and query (`?`) parts are stripped;
for an absolute URL (containing `://`) the path starts at the first `/` after
the authority; a string without `://` is itself the path. -/
def urlPath (s : String) : String :=
  let cs := (s.toList.takeWhile (fun c => c != '#')).takeWhile (fun c => c != '?')
  match afterSchemeSep cs with
  | some rest => (rest.dropWhile (fun c => c != '/')).asString
  | none => cs.asString

/-- Go's `path.Base`: the last element of the path; `"."` for the empty path,
`"/"` for a path of only slashes; trailing slashes are removed first. -/
def pathBase (p : String) : String :=
  if p == "" then "."
  else
    let cs := p.toList.reverse.dropWhile (fun c => c == '/')
    if cs.isEmpty then "/"
    else (cs.takeWhile (fun c => c != '/')).reverse.asString

/-- `parseUploadResult` (src/unnamed/part_006 lines 622-643): decode an
uploader's descriptor string into the stored URL and delete identifier.  For
the `sm.ms` and `oss` backend kinds a `value@@@token` descriptor is split at
the separator; `oss` descriptors without the separator fall back to deriving
the object key from the URL's path. -/
def parseUploadResult (result uploaderType : String) : String × String :=
  let parts := goSplitAts result
  if (uploaderType == "sm.ms" || uploaderType == "oss") && parts.length == 2 then
    (parts.headD "", parts.getLastD "")
  else if uploaderType == "oss" then
    (result, trimLeadingSlash (urlPath result))
  else
    (result, "")

/-! ## Uploaders and the storage manager

An uploader instance is reduced to its stable kind tag (`Type()`); the
byte-level effect of `Upload` is an oracle `uploadResult : Nat → Option String`
giving, per backend id, the descriptor returned on success or `none` on
failure.  The storage manager (`manager.StorageManager.Get`) is a partial map
`Nat → Option Uploader`. -/

/-- A live uploader client, reduced to its `Type()` tag. -/
structure Uploader where
  type : String
deriving Repr, DecidableEq

/-- The parts of `multipart.FileHeader` the service layer reads. -/
structure FileHeader where
  filename : String
  size : Int
  contentType : String
deriving Repr, DecidableEq

/-- Result of one ingest-coordinator call: the database afterwards, the Go
return value, and the backend ids on which a physical upload was attempted
(`uploader.Upload` invoked). -/
structure UploadOutcome where
  db : DBState
  result : Except String Image
  attempted : List Nat
deriving Repr

/-- The StorageLocation row `distributeToBackends` creates for one successful
upload: the descriptor decoded by `parseUploadResult`, the location active,
the failure counter at its zero default. -/
def locationFor (db : DBState) (imageID : Nat) (b : Backend) (up : Uploader)
    (res : String) : StorageLocation :=
  { id := db.nextLocationID, imageID := imageID, backendID := b.id,
    storageType := up.type, url := (parseUploadResult res up.type).1,
    deleteIdentifier := (parseUploadResult res up.type).2,
    isActive := true, failureCount := 0 }

/-- `distributeToBackends` (src/unnamed/part_006 lines 263-302): fan the file
out to each target backend; a backend with no registered uploader is skipped;
a failed upload is logged and skipped; each successful upload creates exactly
one StorageLocation row via `parseUploadResult`.  The Go code runs the
per-backend bodies in goroutines; row insertion order is
scheduling-dependent, modelled here as the target-list order. -/
def distributeToBackends (db : DBState) (imageID : Nat) (backends : List Backend)
    (manager : Nat → Option Uploader) (uploadResult : Nat → Option String) :
    DBState × List Nat :=
  match backends with
  | [] => (db, [])
  | b :: rest =>
    match manager b.id with
    | none => distributeToBackends db imageID rest manager uploadResult
    | some up =>
      match uploadResult b.id with
      | none =>
        let r := distributeToBackends db imageID rest manager uploadResult
        (r.1, b.id :: r.2)
      | some res =>
        let db1 : DBState := { db with
          locations := db.locations ++ [locationFor db imageID b up res],
          nextLocationID := db.nextLocationID + 1 }
        let r := distributeToBackends db1 imageID rest manager uploadResult
        (r.1, b.id :: r.2)

/-- The target-backend resolution shared by `handleNewImage` and
`handleDuplicateImage`: all upload-accepting backends, intersected with the
explicit target list when one is given
(`WHERE allow_upload = true [AND id IN targets]`). -/
def resolveBackends (backendsTable : List Backend) (targetBackendIDs : List Nat) :
    List Backend :=
  backendsTable.filter (fun b =>
    b.allowUpload && (targetBackendIDs.isEmpty || targetBackendIDs.contains b.id))

/-- The Image row `handleNewImage` creates: zero dimensions when decoding
the incoming file fails. -/
def newImageFor (db : DBState) (file : FileHeader) (userID : Nat)
    (fileMD5 : String) (dims : Option (Int × Int)) (newUUID : String) : Image :=
  { id := db.nextImageID, uuid := newUUID, md5 := fileMD5,
    originalFilename := file.filename, fileSize := file.size,
    contentType := file.contentType,
    width := (dims.getD (0, 0)).1, height := (dims.getD (0, 0)).2,
    allowRandom := false, userID := userID }

/-- `handleNewImage` (src/unnamed/part_006 lines 136-178): a genuinely new
artifact.  `dims` is the `getImageDimensions` result (`none` = error, in
which case Go proceeds with the zero values).  The Image `Create` is modelled
as succeeding (see `imageInsertAllowedSpec`). -/
def handleNewImage (db : DBState) (file : FileHeader) (userID : Nat) (fileMD5 : String)
    (dims : Option (Int × Int)) (targetBackendIDs : List Nat)
    (backendsTable : List Backend) (newUUID : String)
    (manager : Nat → Option Uploader) (uploadResult : Nat → Option String) :
    UploadOutcome :=
  let activeBackends := resolveBackends backendsTable targetBackendIDs
  if activeBackends.isEmpty then
    { db := db, result := .error "no active storage backends configured or selected",
      attempted := [] }
  else
    let image := newImageFor db file userID fileMD5 dims newUUID
    let db1 : DBState := { db with
      images := db.images ++ [image], nextImageID := db.nextImageID + 1 }
    let r := distributeToBackends db1 image.id activeBackends manager uploadResult
    if (locsOf r.1 image.id).isEmpty then
      { db := { r.1 with images := (r.1).images.filter (fun i => i.id != image.id) },
        result := .error "upload failed on all active backends", attempted := r.2 }
    else
      { db := r.1, result := .ok image, attempted := r.2 }

/-- `handleDuplicateImage` (src/unnamed/part_006 lines 181-211): the same
owner re-uploads bytes it already owns; backfill only the backends the image
has no StorageLocation on yet. -/
def handleDuplicateImage (db : DBState) (existingImage : Image) (file : FileHeader)
    (targetBackendIDs : List Nat) (backendsTable : List Backend)
    (manager : Nat → Option Uploader) (uploadResult : Nat → Option String) :
    UploadOutcome :=
  let allPossibleBackends := resolveBackends backendsTable targetBackendIDs
  let existingBackendIDs := (locsOf db existingImage.id).map (fun l => l.backendID)
  let backendsToBackfill :=
    allPossibleBackends.filter (fun b => !(existingBackendIDs.contains b.id))
  if backendsToBackfill.isEmpty then
    { db := db, result := .ok existingImage, attempted := [] }
  else
    let r := distributeToBackends db existingImage.id backendsToBackfill manager uploadResult
    { db := r.1, result := .ok existingImage, attempted := r.2 }

/-- The StorageLocation rows `handleSharedImage` builds: one copy of each
*active* location of the source image, pointing at the same backend object
(same backend, kind tag, URL and delete identifier), owned by the new image.
Row ids are assigned on insert by `appendLocations`. -/
def sharedLocationCopies (srcLocs : List StorageLocation) (newImageID : Nat) :
    List StorageLocation :=
  (srcLocs.filter (fun l => l.isActive)).map (fun loc =>
    { id := 0, imageID := newImageID, backendID := loc.backendID,
      storageType := loc.storageType, url := loc.url,
      deleteIdentifier := loc.deleteIdentifier, isActive := true, failureCount := 0 })

/-- Auto-increment primary-key assignment for a batch insert. -/
def assignIds (startID : Nat) : List StorageLocation → List StorageLocation
  | [] => []
  | l :: rest => { l with id := startID } :: assignIds (startID + 1) rest

/-- Batch-insert location rows (`Create(&newLocations)`), assigning
auto-increment primary keys. -/
def appendLocations (db : DBState) (ls : List StorageLocation) : DBState :=
  { db with
    locations := db.locations ++ assignIds db.nextLocationID ls,
    nextLocationID := db.nextLocationID + ls.length }

/-- The fresh Image row `handleSharedImage` creates for the uploading user:
same hash, new identifier, the source image's dimensions when decoding the
incoming file fails. -/
def sharedImageFor (db : DBState) (file : FileHeader) (userID : Nat)
    (fileMD5 : String) (existingImage : Image) (dims : Option (Int × Int))
    (newUUID : String) : Image :=
  { id := db.nextImageID, uuid := newUUID, md5 := fileMD5,
    originalFilename := file.filename, fileSize := file.size,
    contentType := file.contentType,
    width := (dims.getD (existingImage.width, existingImage.height)).1,
    height := (dims.getD (existingImage.width, existingImage.height)).2,
    allowRandom := false, userID := userID }

/-- `handleSharedImage` (src/unnamed/part_006 lines 214-261): the hash exists
under a different owner; create a fresh Image row for this owner and link it
to the other owner's active physical objects without uploading anything.
`dims` is the `getImageDimensions` result (`none` = error, in which case the
source image's dimensions are used); `locCreateOK` models whether the batch
`Create(&newLocations)` succeeds; the Image `Create` is modelled as
succeeding (see `imageInsertAllowedSpec`). -/
def handleSharedImage (db : DBState) (file : FileHeader) (userID : Nat) (fileMD5 : String)
    (existingImage : Image) (dims : Option (Int × Int)) (newUUID : String)
    (locCreateOK : Bool) : UploadOutcome :=
  let image := sharedImageFor db file userID fileMD5 existingImage dims newUUID
  let db1 : DBState := { db with
    images := db.images ++ [image], nextImageID := db.nextImageID + 1 }
  let newLocations := sharedLocationCopies (locsOf db existingImage.id) image.id
  if newLocations.isEmpty then
    { db := db1, result := .ok image, attempted := [] }
  else if locCreateOK then
    { db := appendLocations db1 newLocations, result := .ok image, attempted := [] }
  else
    { db := { db1 with images := db1.images.filter (fun i => i.id != image.id) },
      result := .error "failed to link shared storage locations", attempted := [] }

/-- `UploadImage` (src/unnamed/part_006 lines 97-133): the ingest entry
point.  `fileMD5` is the digest `util.CalculateFileMD5` computes from the
bytes; `First` on a GORM query is the first matching row in table order. -/
def UploadImage (db : DBState) (file : FileHeader) (userID : Nat) (fileMD5 : String)
    (dims : Option (Int × Int)) (newUUID : String)
    (targetBackendIDs : List Nat) (backendsTable : List Backend)
    (manager : Nat → Option Uploader) (uploadResult : Nat → Option String)
    (locCreateOK : Bool) : UploadOutcome :=
  match db.images.find? (fun i => i.md5 == fileMD5 && i.userID == userID) with
  | some existingImageForUser =>
    handleDuplicateImage db existingImageForUser file targetBackendIDs backendsTable
      manager uploadResult
  | none =>
    match db.images.find? (fun i => i.md5 == fileMD5) with
    | some existingImageForOtherUser =>
      handleSharedImage db file userID fileMD5 existingImageForOtherUser dims newUUID
        locCreateOK
    | none =>
      handleNewImage db file userID fileMD5 dims targetBackendIDs backendsTable newUUID
        manager uploadResult

/-- The identifier handed to a backend's `Delete`: for a `local` location the
base name of the stored URL's path, otherwise the stored delete identifier
(src/unnamed/part_006 lines 334-339). -/
def deleteIdentifierFor (loc : StorageLocation) : String :=
  if loc.storageType == "local" then pathBase (urlPath loc.url) else loc.deleteIdentifier

/-- `DeleteImage` (src/unnamed/part_006 lines 305-358).  Returns the database
afterwards, the physical deletions issued (backend id, delete identifier) —
a location whose backend has no registered uploader is skipped (logged) —
and the Go return value.  Physical delete errors are logged and ignored. -/
def DeleteImage (db : DBState) (imageUUID : String) (userID : Nat) (userRole : String)
    (manager : Nat → Option Uploader) :
    DBState × List (Nat × String) × Except String Unit :=
  match db.images.find? (fun i =>
      i.uuid == imageUUID && (userRole == "admin" || i.userID == userID)) with
  | none => (db, [], .error "image not found or permission denied")
  | some image =>
    let otherCount :=
      (db.images.filter (fun i => i.md5 == image.md5 && i.id != image.id)).length
    let physicalDeletes :=
      if otherCount == 0 then
        (locsOf db image.id).filterMap (fun loc =>
          (manager loc.backendID).map (fun _ => (loc.backendID, deleteIdentifierFor loc)))
      else []
    let db2 : DBState := { db with
      images := db.images.filter (fun i => i.id != image.id),
      locations := db.locations.filter (fun l => l.imageID != image.id) }
    (db2, physicalDeletes, .ok ())

/-! ## Resolution engine -/

/-- A StorageLocation with its preloaded Backend
(`Preload("StorageLocations.Backend")`). -/
structure LocBackend where
  loc : StorageLocation
  backend : Backend
deriving Repr, DecidableEq

/-- The candidate order of `sort.Slice(availableLocations, ...)`: ascending
backend priority. -/
def priRel (a b : LocBackend) : Prop :=
  a.backend.priority ≤ b.backend.priority

instance : DecidableRel priRel :=
  fun a b => inferInstanceAs (Decidable (_ ≤ _))

instance : IsTotal LocBackend priRel :=
  ⟨fun _ _ => le_total _ _⟩

instance : IsTrans LocBackend priRel :=
  ⟨fun _ _ _ => le_trans⟩

/-- The filter of `GetHealthyStorageLocation` (src/unnamed/part_006 lines
373-379): active, backend flagged for redirects, and failure check passed
(threshold zero means unlimited tolerance). -/
def availableOf (locs : List LocBackend) (maxFailures : Nat) : List LocBackend :=
  locs.filter (fun lb =>
    lb.loc.isActive && lb.backend.allowRedirect &&
      (maxFailures == 0 || decide (lb.loc.failureCount < maxFailures)))

/-- The ordered candidate list: sorted ascending by backend priority under
the `priority` policy (Go uses the unstable `sort.Slice`; the tie order is
immaterial to every property proved here), otherwise shuffled —
`rand.Shuffle` is modelled by the `shuffle` parameter. -/
def orderedOf (locs : List LocBackend) (maxFailures : Nat) (accessPolicy : String)
    (shuffle : List LocBackend → List LocBackend) : List LocBackend :=
  if accessPolicy == "priority" then
    List.insertionSort priRel (availableOf locs maxFailures)
  else
    shuffle (availableOf locs maxFailures)

/-- The sequential probe loop (src/unnamed/part_006 lines 406-431): return
the first healthy candidate, also reporting the candidates probed.  The
fire-and-forget failure-counter writes the Go code spawns are advisory
bookkeeping outside the modelled state. -/
def probeLoop (healthy : LocBackend → Bool) :
    List LocBackend → List LocBackend → Except String LocBackend × List LocBackend
  | [], probed =>
    (.error "all available storage locations are currently unreachable", probed.reverse)
  | l :: rest, probed =>
    if healthy l then (.ok l, (l :: probed).reverse)
    else probeLoop healthy rest (l :: probed)

/-- `GetHealthyStorageLocation` (src/unnamed/part_006 lines 360-434), from
the preloaded locations of the image onward.  `healthy` is the liveness
probe (local file existence or the `HEAD` check); the second component is
the list of candidates actually probed. -/
def GetHealthyStorageLocation (locs : List LocBackend) (maxFailures : Nat)
    (accessPolicy : String) (shuffle : List LocBackend → List LocBackend)
    (healthy : LocBackend → Bool) : Except String LocBackend × List LocBackend :=
  let available := availableOf locs maxFailures
  if available.isEmpty then
    (.error "no available storage locations for this image", [])
  else
    let ordered := orderedOf locs maxFailures accessPolicy shuffle
    if maxFailures == 0 then
      match ordered with
      | l :: _ => (.ok l, [])
      | [] => (.error "all available storage locations are currently unreachable", [])
    else
      probeLoop healthy ordered []

/-! ## Listing -/

/-- `service.ListImagesResponse`. -/
structure ListImagesResponse where
  total : Nat
  page : Int
  pageSize : Int
  images : List Image
deriving Repr

/-- The `LIMIT pageSize OFFSET (page-1)*pageSize` slice of the filtered rows.
GORM cancels a `LIMIT`/`OFFSET` clause given a negative argument. -/
def pageSlice (rows : List Image) (page pageSize : Int) : List Image :=
  let off := (page - 1) * pageSize
  let afterOffset := if off < 0 then rows else rows.drop off.toNat
  if pageSize < 0 then afterOffset else afterOffset.take pageSize.toNat

/-- `ListImages` (src/unnamed/part_006 lines 436-465).  The `ORDER BY
created_at desc` clause permutes the filtered rows before paging and is not
modelled (table order is used); the properties proved are order-insensitive. -/
def ListImages (db : DBState) (userID : Nat) (userRole : String) (keyword : String)
    (page pageSize : Int) : ListImagesResponse :=
  let base := db.images
  let afterRole :=
    if userRole != "admin" then base.filter (fun i => i.userID == userID) else base
  let afterKeyword :=
    if keyword != "" then
      afterRole.filter (fun i => containsSub i.originalFilename keyword)
    else afterRole
  { total := afterKeyword.length, page := page, pageSize := pageSize,
    images := pageSlice afterKeyword page pageSize }

/-! ## Local uploader deletion -/

/-- `filepath.Join` for the clean, slash-free segments this system joins. -/
def joinPath (a b : String) : String := a ++ "/" ++ b

/-- `storage.LocalUploader`. -/
structure LocalUploader where
  storagePath : String
  publicURL : String
deriving Repr, DecidableEq

/-- `LocalUploader.Delete` (src/storage/oss.go lines 154-163): the filesystem
is the list of existing file paths; an empty identifier is an error; an
already-absent file is a successful deletion; otherwise the file is removed
(`os.Remove`). -/
def LocalUploader.Delete (l : LocalUploader) (fs : List String)
    (deleteIdentifier : String) : Except String Unit × List String :=
  if deleteIdentifier == "" then
    (.error "local delete identifier is empty", fs)
  else
    let fullPath := joinPath l.storagePath deleteIdentifier
    if !(fs.contains fullPath) then (.ok (), fs)
    else (.ok (), fs.filter (fun p => p != fullPath))

/-! ## Helper lemmas -/

theorem distribute_images_eq (db : DBState) (iid : Nat) (bs : List Backend)
    (manager : Nat → Option Uploader) (ur : Nat → Option String) :
    (distributeToBackends db iid bs manager ur).1.images = db.images := by
  induction bs generalizing db with
  | nil => rfl
  | cons b rest ih =>
    simp only [distributeToBackends]
    cases manager b.id with
    | none => exact ih db
    | some up =>
      cases ur b.id with
      | none => simpa using ih db
      | some res => simpa using ih _

theorem distribute_state_eq_of_all_fail (db : DBState) (iid : Nat) (bs : List Backend)
    (manager : Nat → Option Uploader) (ur : Nat → Option String)
    (h : ∀ b ∈ bs, ur b.id = none) :
    (distributeToBackends db iid bs manager ur).1 = db := by
  induction bs generalizing db with
  | nil => rfl
  | cons b rest ih =>
    simp only [distributeToBackends]
    cases hm : manager b.id with
    | none => exact ih db (fun x hx => h x (List.mem_cons_of_mem b hx))
    | some up =>
      rw [h b (List.mem_cons_self b rest)]
      simpa using ih db (fun x hx => h x (List.mem_cons_of_mem b hx))

theorem distribute_attempted_eq (db : DBState) (iid : Nat) (bs : List Backend)
    (manager : Nat → Option Uploader) (ur : Nat → Option String)
    (h : ∀ b ∈ bs, (manager b.id).isSome) :
    (distributeToBackends db iid bs manager ur).2 = bs.map (fun b => b.id) := by
  induction bs generalizing db with
  | nil => rfl
  | cons b rest ih =>
    have hb := h b (List.mem_cons_self b rest)
    have hrest : ∀ x ∈ rest, (manager x.id).isSome :=
      fun x hx => h x (List.mem_cons_of_mem b hx)
    simp only [distributeToBackends]
    cases hm : manager b.id with
    | none => rw [hm] at hb; simp at hb
    | some up =>
      cases hr : ur b.id with
      | none => simpa using ih db hrest
      | some res => simpa using ih _ hrest

theorem distribute_locations_append (db : DBState) (iid : Nat) (bs : List Backend)
    (manager : Nat → Option Uploader) (ur : Nat → Option String) :
    ∃ new, (distributeToBackends db iid bs manager ur).1.locations = db.locations ++ new ∧
      ∀ l ∈ new, l.imageID = iid := by
  induction bs generalizing db with
  | nil => exact ⟨[], by simp [distributeToBackends], by simp⟩
  | cons b rest ih =>
    simp only [distributeToBackends]
    cases hm : manager b.id with
    | none => exact ih db
    | some up =>
      cases hr : ur b.id with
      | none => simpa using ih db
      | some res =>
        obtain ⟨new, hnew, hmem⟩ := ih
          { db with
            locations := db.locations ++ [locationFor db iid b up res],
            nextLocationID := db.nextLocationID + 1 }
        refine ⟨locationFor db iid b up res :: new, ?_, ?_⟩
        · simpa [List.append_assoc] using hnew
        · intro l hl
          rcases List.mem_cons.mp hl with h1 | h2
          · subst h1; rfl
          · exact hmem l h2

theorem locsOf_next_eq_nil (db : DBState) (h : db.wf) :
    locsOf db db.nextImageID = [] := by
  unfold locsOf
  rw [List.filter_eq_nil_iff]
  intro l hl
  have := (h.2 l hl).1
  simp only [beq_iff_eq]
  omega

/-! ## C1 -/

/-- C1: the persistence schema in src/database/models.go declares a *global*
unique index on the content hash (`MD5 ... uniqueIndex`), not the composite
(hash, owner) constraint the claim states.  With an Image row
(hash "abc123", owner 1) present, inserting (hash "abc123", owner 2) is
rejected by the declared schema — although the claim, the spec (§3, §6) and
the service code's own comment (src/unnamed/part_006 line 222, on which
`handleSharedImage` depends) all require it to be permitted.  A duplicate of
the same (hash, owner) pair is rejected under both schemas. -/
theorem C1_schema_rejects_cross_owner_duplicate :
    imageInsertAllowed
      ⟨[⟨1, "uuid-1", "abc123", "cat.png", 100, "image/png", 0, 0, false, 1⟩], [], 2, 1⟩
      ⟨2, "uuid-2", "abc123", "cat.png", 100, "image/png", 0, 0, false, 2⟩ = false ∧
    imageInsertAllowedSpec
      ⟨[⟨1, "uuid-1", "abc123", "cat.png", 100, "image/png", 0, 0, false, 1⟩], [], 2, 1⟩
      ⟨2, "uuid-2", "abc123", "cat.png", 100, "image/png", 0, 0, false, 2⟩ = true ∧
    imageInsertAllowed
      ⟨[⟨1, "uuid-1", "abc123", "cat.png", 100, "image/png", 0, 0, false, 1⟩], [], 2, 1⟩
      ⟨2, "uuid-2", "abc123", "cat.png", 100, "image/png", 0, 0, false, 1⟩ = false ∧
    imageInsertAllowedSpec
      ⟨[⟨1, "uuid-1", "abc123", "cat.png", 100, "image/png", 0, 0, false, 1⟩], [], 2, 1⟩
      ⟨2, "uuid-2", "abc123", "cat.png", 100, "image/png", 0, 0, false, 1⟩ = false := by
  decide

/-! ## C9 -/

/-- C9: the local-disk delete is idempotent for every non-empty delete
identifier: the first call succeeds, leaves the object absent, the second
call succeeds as a no-op, and an already-absent file is treated as a
successful deletion rather than an error. -/
theorem C9_local_delete_idempotent (l : LocalUploader) (fs : List String)
    (ident : String) (h : ident ≠ "") :
    (l.Delete fs ident).1 = .ok () ∧
    joinPath l.storagePath ident ∉ (l.Delete fs ident).2 ∧
    l.Delete (l.Delete fs ident).2 ident = (.ok (), (l.Delete fs ident).2) ∧
    (joinPath l.storagePath ident ∉ fs → l.Delete fs ident = (.ok (), fs)) := by
  have hne : (ident == "") = false := by simpa using h
  by_cases hc : joinPath l.storagePath ident ∈ fs
  · have hcc : fs.contains (joinPath l.storagePath ident) = true := by
      simpa using hc
    have hfil : joinPath l.storagePath ident ∉
        fs.filter (fun p => p != joinPath l.storagePath ident) := by
      intro hmem
      have := List.mem_filter.mp hmem
      simp at this
    refine ⟨?_, ?_, ?_, ?_⟩
    · simp [LocalUploader.Delete, hne, hcc, hc]
    · simpa [LocalUploader.Delete, hne, hcc, hc] using hfil
    · have hfc : joinPath l.storagePath ident ∉
          fs.filter (fun p => p != joinPath l.storagePath ident) := hfil
      simp [LocalUploader.Delete, hne, hcc, hc, hfc]
    · intro hco; exact absurd hc hco
  · have hcc : fs.contains (joinPath l.storagePath ident) = false := by
      simpa using hc
    refine ⟨?_, ?_, ?_, ?_⟩
    · simp [LocalUploader.Delete, hne, hcc, hc]
    · simpa [LocalUploader.Delete, hne, hcc, hc] using hc
    · simp [LocalUploader.Delete, hne, hcc, hc]
    · intro _; simp [LocalUploader.Delete, hne, hcc, hc]

/-- Witness for C9 at a concrete filesystem: the file exists before the first
call. -/
theorem C9_local_delete_idempotent_witness :
    ("u.png" ≠ "") ∧
    ((LocalUploader.Delete ⟨"uploads", "http://h"⟩ ["uploads/u.png"] "u.png").1 = .ok () ∧
      joinPath "uploads" "u.png" ∉
        (LocalUploader.Delete ⟨"uploads", "http://h"⟩ ["uploads/u.png"] "u.png").2 ∧
      LocalUploader.Delete ⟨"uploads", "http://h"⟩
          (LocalUploader.Delete ⟨"uploads", "http://h"⟩ ["uploads/u.png"] "u.png").2 "u.png" =
        (.ok (), (LocalUploader.Delete ⟨"uploads", "http://h"⟩ ["uploads/u.png"] "u.png").2) ∧
      (joinPath "uploads" "u.png" ∉ ["uploads/u.png"] →
        LocalUploader.Delete ⟨"uploads", "http://h"⟩ ["uploads/u.png"] "u.png" =
          (.ok (), ["uploads/u.png"]))) :=
  ⟨by decide, C9_local_delete_idempotent ⟨"uploads", "http://h"⟩ ["uploads/u.png"] "u.png"
    (by decide)⟩

theorem mem_of_mem_pageSlice {x : Image} {rows : List Image} {page pageSize : Int}
    (hx : x ∈ pageSlice rows page pageSize) : x ∈ rows := by
  simp only [pageSlice] at hx
  split at hx
  · split at hx
    · exact hx
    · exact List.mem_of_mem_drop hx
  · have := List.mem_of_mem_take hx
    split at this
    · exact this
    · exact List.mem_of_mem_drop this

/-! ## C10 -/

/-- C10: `ListImages` scopes both the returned page and the reported total to
the calling user's images whenever the caller's role is not `admin`,
regardless of keyword, page, or page size; for the `admin` role the owner
filter is dropped entirely — the result does not depend on the calling
user's id at all. -/
theorem C10_list_images_owner_scoped (db : DBState) (userID : Nat)
    (userRole : String) (keyword : String) (page pageSize : Int) :
    (userRole ≠ "admin" →
      (∀ img ∈ (ListImages db userID userRole keyword page pageSize).images,
        img.userID = userID) ∧
      (ListImages db userID userRole keyword page pageSize).total =
        ((db.images.filter (fun i => i.userID == userID)).filter
          (fun i => keyword == "" || containsSub i.originalFilename keyword)).length) ∧
    (userRole = "admin" →
      ListImages db userID userRole keyword page pageSize =
        ListImages db 0 userRole keyword page pageSize) := by
  constructor
  · intro hrole
    have hrb : (userRole != "admin") = true := by simpa using hrole
    constructor
    · intro img hmem
      simp only [ListImages, hrb, if_true] at hmem
      have h1 : img ∈ (if keyword != "" then
          (db.images.filter (fun i => i.userID == userID)).filter
            (fun i => containsSub i.originalFilename keyword)
        else db.images.filter (fun i => i.userID == userID)) :=
        mem_of_mem_pageSlice hmem
      have h2 : img ∈ db.images.filter (fun i => i.userID == userID) := by
        split at h1
        · exact (List.mem_filter.mp h1).1
        · exact h1
      have := (List.mem_filter.mp h2).2
      simpa using this
    · simp only [ListImages, hrb, if_true]
      by_cases hkw : keyword = ""
      · subst hkw; simp
      · have hkb : (keyword != "") = true := by simpa using hkw
        have hkb2 : (keyword == "") = false := by simpa using hkw
        simp [hkb, hkb2]
  · intro hrole
    subst hrole
    simp [ListImages]

/-- Witness for C10 at a concrete database: a non-admin caller and an admin
caller over a two-owner table. -/
theorem C10_list_images_owner_scoped_witness :
    (("user" : String) ≠ "admin" →
      (∀ img ∈ (ListImages
          ⟨[⟨1, "u1", "h1", "a.png", 1, "image/png", 0, 0, false, 1⟩,
            ⟨2, "u2", "h2", "b.png", 1, "image/png", 0, 0, false, 2⟩], [], 3, 1⟩
          1 "user" "" 1 10).images, img.userID = 1) ∧
      (ListImages
          ⟨[⟨1, "u1", "h1", "a.png", 1, "image/png", 0, 0, false, 1⟩,
            ⟨2, "u2", "h2", "b.png", 1, "image/png", 0, 0, false, 2⟩], [], 3, 1⟩
          1 "user" "" 1 10).total =
        ((([⟨1, "u1", "h1", "a.png", 1, "image/png", 0, 0, false, 1⟩,
            ⟨2, "u2", "h2", "b.png", 1, "image/png", 0, 0, false, 2⟩] :
              List Image).filter (fun i => i.userID == 1)).filter
          (fun i => ("" : String) == "" || containsSub i.originalFilename "")).length) ∧
    (("user" : String) = "admin" →
      ListImages
          ⟨[⟨1, "u1", "h1", "a.png", 1, "image/png", 0, 0, false, 1⟩,
            ⟨2, "u2", "h2", "b.png", 1, "image/png", 0, 0, false, 2⟩], [], 3, 1⟩
          1 "user" "" 1 10 =
        ListImages
          ⟨[⟨1, "u1", "h1", "a.png", 1, "image/png", 0, 0, false, 1⟩,
            ⟨2, "u2", "h2", "b.png", 1, "image/png", 0, 0, false, 2⟩], [], 3, 1⟩
          0 "user" "" 1 10) :=
  C10_list_images_owner_scoped
    ⟨[⟨1, "u1", "h1", "a.png", 1, "image/png", 0, 0, false, 1⟩,
      ⟨2, "u2", "h2", "b.png", 1, "image/png", 0, 0, false, 2⟩], [], 3, 1⟩
    1 "user" "" 1 10

/-! ## C3 -/

/-- C3: with the max-failure threshold configured as zero, every active
redirect-enabled location is a candidate regardless of its failure counter,
no health probe is performed, and `GetHealthyStorageLocation` returns the
first candidate of the ordered/shuffled list rather than an error. -/
theorem C3_zero_threshold_trust_mode (locs : List LocBackend)
    (accessPolicy : String) (shuffle : List LocBackend → List LocBackend)
    (healthy : LocBackend → Bool)
    (hex : ∃ lb ∈ locs, lb.loc.isActive = true ∧ lb.backend.allowRedirect = true)
    (hsh : ∀ xs : List LocBackend, xs ≠ [] → shuffle xs ≠ []) :
    ∃ l rest, orderedOf locs 0 accessPolicy shuffle = l :: rest ∧
      GetHealthyStorageLocation locs 0 accessPolicy shuffle healthy = (.ok l, []) := by
  have havail : availableOf locs 0 ≠ [] := by
    obtain ⟨lb, hmem, hact, hred⟩ := hex
    intro hnil
    have hlb : lb ∈ availableOf locs 0 := by
      unfold availableOf
      rw [List.mem_filter]
      exact ⟨hmem, by simp [hact, hred]⟩
    rw [hnil] at hlb
    exact List.not_mem_nil lb hlb
  have hord : orderedOf locs 0 accessPolicy shuffle ≠ [] := by
    unfold orderedOf
    split
    · intro hnil
      have hp := List.perm_insertionSort priRel (availableOf locs 0)
      rw [hnil] at hp
      exact havail (List.Perm.eq_nil hp.symm)
    · exact hsh _ havail
  obtain ⟨l, rest, hcons⟩ := List.exists_cons_of_ne_nil hord
  refine ⟨l, rest, hcons, ?_⟩
  have hne : (availableOf locs 0).isEmpty = false := by
    simpa [List.isEmpty_iff] using havail
  simp [GetHealthyStorageLocation, hne, hcons]

/-- Witness for C3: one active redirect-enabled location whose failure
counter is enormous, under the random policy with the identity shuffle; no
probe happens and the location is returned. -/
theorem C3_zero_threshold_trust_mode_witness :
    ∃ l rest,
      orderedOf [⟨⟨1, 1, 1, "local", "/uploads/u.png", "", true, 1000⟩,
        ⟨1, "A", "local", 1, true, true⟩⟩] 0 "random" (fun xs => xs) = l :: rest ∧
      GetHealthyStorageLocation
        [⟨⟨1, 1, 1, "local", "/uploads/u.png", "", true, 1000⟩,
          ⟨1, "A", "local", 1, true, true⟩⟩] 0 "random" (fun xs => xs)
        (fun _ => false) = (.ok l, []) :=
  C3_zero_threshold_trust_mode _ "random" (fun xs => xs) (fun _ => false)
    ⟨⟨⟨1, 1, 1, "local", "/uploads/u.png", "", true, 1000⟩,
      ⟨1, "A", "local", 1, true, true⟩⟩, by decide, by decide, by decide⟩
    (fun _ h => h)

theorem probeLoop_first_healthy (healthy : LocBackend → Bool)
    (l : List LocBackend) (probed : List LocBackend)
    (h : ∃ x ∈ l, healthy x = true) :
    ∃ pre x suf, l = pre ++ x :: suf ∧ (∀ y ∈ pre, healthy y = false) ∧
      healthy x = true ∧ (probeLoop healthy l probed).1 = .ok x := by
  induction l generalizing probed with
  | nil => simp at h
  | cons a rest ih =>
    cases ha : healthy a with
    | true =>
      exact ⟨[], a, rest, rfl, by simp, ha, by simp [probeLoop, ha]⟩
    | false =>
      obtain ⟨x, hx, hhx⟩ := h
      rcases List.mem_cons.mp hx with rfl | hx2
      · rw [hhx] at ha; cases ha
      · obtain ⟨pre, y, suf, heq, hpre, hy, hres⟩ := ih (a :: probed) ⟨x, hx2, hhx⟩
        refine ⟨a :: pre, y, suf, by simp [heq], ?_, hy, ?_⟩
        · intro z hz
          rcases List.mem_cons.mp hz with rfl | hz2
          · exact ha
          · exact hpre z hz2
        · simpa [probeLoop, ha] using hres

/-! ## C6 -/

/-- C6: under the `priority` access policy with a nonzero failure threshold,
whenever some eligible candidate (active, redirect-enabled, failure counter
below the threshold) is healthy, `GetHealthyStorageLocation` returns a
healthy eligible candidate whose backend priority number is least among all
healthy eligible candidates: the candidates are sorted ascending by backend
priority and the first healthy one is returned. -/
theorem C6_priority_returns_lowest_healthy (locs : List LocBackend)
    (maxFailures : Nat) (shuffle : List LocBackend → List LocBackend)
    (healthy : LocBackend → Bool) (hmf : maxFailures ≠ 0)
    (hex : ∃ lb ∈ availableOf locs maxFailures, healthy lb = true) :
    ∃ lb, (GetHealthyStorageLocation locs maxFailures "priority" shuffle healthy).1 =
        .ok lb ∧
      healthy lb = true ∧ lb ∈ availableOf locs maxFailures ∧
      ∀ lb2 ∈ availableOf locs maxFailures, healthy lb2 = true →
        lb.backend.priority ≤ lb2.backend.priority := by
  have havail : availableOf locs maxFailures ≠ [] := by
    obtain ⟨lb, hm, _⟩ := hex
    intro hnil
    rw [hnil] at hm
    exact List.not_mem_nil lb hm
  have hne : (availableOf locs maxFailures).isEmpty = false := by
    simpa [List.isEmpty_iff] using havail
  have hmfb : (maxFailures == 0) = false := by simpa using hmf
  have hperm : List.Perm (List.insertionSort priRel (availableOf locs maxFailures))
      (availableOf locs maxFailures) := List.perm_insertionSort priRel _
  have hsort : List.Sorted priRel
      (List.insertionSort priRel (availableOf locs maxFailures)) :=
    List.sorted_insertionSort priRel _
  have hex2 : ∃ x ∈ List.insertionSort priRel (availableOf locs maxFailures),
      healthy x = true := by
    obtain ⟨lb, hm, hh⟩ := hex
    exact ⟨lb, hperm.mem_iff.mpr hm, hh⟩
  obtain ⟨pre, x, suf, heq, hpre, hx, hres⟩ :=
    probeLoop_first_healthy healthy _ [] hex2
  refine ⟨x, ?_, hx, ?_, ?_⟩
  · simpa [GetHealthyStorageLocation, orderedOf, hne, hmfb] using hres
  · have hmemx : x ∈ List.insertionSort priRel (availableOf locs maxFailures) := by
      rw [heq]
      exact List.mem_append.mpr (Or.inr (List.mem_cons_self x suf))
    exact hperm.mem_iff.mp hmemx
  · intro lb2 hm2 hh2
    have hmem2 : lb2 ∈ pre ++ x :: suf := by
      rw [← heq]
      exact hperm.mem_iff.mpr hm2
    have hsp : List.Pairwise priRel (pre ++ x :: suf) := by
      rw [← heq]
      exact hsort
    rcases List.mem_append.mp hmem2 with hin | hin
    · rw [hpre lb2 hin] at hh2
      cases hh2
    · rcases List.mem_cons.mp hin with rfl | hin2
      · exact le_refl _
      · have hps : List.Pairwise priRel (x :: suf) :=
          (List.pairwise_append.mp hsp).2.1
        exact (List.pairwise_cons.mp hps).1 lb2 hin2

/-- Witness for C6: two eligible candidates, only the higher-priority-number
one healthy; it is returned and its priority is least among healthy
candidates. -/
theorem C6_priority_returns_lowest_healthy_witness :
    ∃ lb, (GetHealthyStorageLocation
        [⟨⟨2, 1, 2, "oss", "https://h/a.png", "k", true, 0⟩,
          ⟨2, "B", "oss", 2, true, true⟩⟩,
         ⟨⟨1, 1, 1, "local", "/uploads/u.png", "", true, 0⟩,
          ⟨1, "A", "local", 1, true, true⟩⟩] 3 "priority" (fun xs => xs)
        (fun lb => lb.loc.id == 2)).1 = .ok lb ∧
      (fun lb : LocBackend => lb.loc.id == 2) lb = true ∧
      lb ∈ availableOf
        [⟨⟨2, 1, 2, "oss", "https://h/a.png", "k", true, 0⟩,
          ⟨2, "B", "oss", 2, true, true⟩⟩,
         ⟨⟨1, 1, 1, "local", "/uploads/u.png", "", true, 0⟩,
          ⟨1, "A", "local", 1, true, true⟩⟩] 3 ∧
      ∀ lb2 ∈ availableOf
        [⟨⟨2, 1, 2, "oss", "https://h/a.png", "k", true, 0⟩,
          ⟨2, "B", "oss", 2, true, true⟩⟩,
         ⟨⟨1, 1, 1, "local", "/uploads/u.png", "", true, 0⟩,
          ⟨1, "A", "local", 1, true, true⟩⟩] 3,
        (fun lb : LocBackend => lb.loc.id == 2) lb2 = true →
          lb.backend.priority ≤ lb2.backend.priority :=
  C6_priority_returns_lowest_healthy _ 3 (fun xs => xs) _ (by decide) (by decide)

/-! ## C7 -/

/-- C7: when the uploading user already owns an Image with the incoming
content hash, `UploadImage` creates no new Image row, returns the existing
record, and attempts a physical upload on exactly the upload-accepting
backends (intersected with the explicit target list when given) on which the
image has no StorageLocation yet; when that missing set is empty the call is
a no-op on the database. -/
theorem C7_same_owner_reupload (db : DBState) (file : FileHeader) (userID : Nat)
    (fileMD5 : String) (dims : Option (Int × Int)) (newUUID : String)
    (targets : List Nat) (backendsTable : List Backend)
    (manager : Nat → Option Uploader) (ur : Nat → Option String)
    (locCreateOK : Bool) (existing : Image) (missing : List Backend)
    (hOwn : db.images.find? (fun i => i.md5 == fileMD5 && i.userID == userID) =
      some existing)
    (hmiss : missing = (resolveBackends backendsTable targets).filter
      (fun b => !(((locsOf db existing.id).map (fun l => l.backendID)).contains b.id)))
    (hMgr : ∀ b ∈ missing, (manager b.id).isSome) :
    (UploadImage db file userID fileMD5 dims newUUID targets backendsTable manager ur
        locCreateOK).db.images = db.images ∧
    (UploadImage db file userID fileMD5 dims newUUID targets backendsTable manager ur
        locCreateOK).result = .ok existing ∧
    (UploadImage db file userID fileMD5 dims newUUID targets backendsTable manager ur
        locCreateOK).attempted = missing.map (fun b => b.id) ∧
    (missing = [] →
      UploadImage db file userID fileMD5 dims newUUID targets backendsTable manager ur
        locCreateOK = ⟨db, .ok existing, []⟩) := by
  have hstep : UploadImage db file userID fileMD5 dims newUUID targets backendsTable
      manager ur locCreateOK =
      handleDuplicateImage db existing file targets backendsTable manager ur := by
    simp only [UploadImage, hOwn]
  subst hmiss
  by_cases hm0 : (resolveBackends backendsTable targets).filter
      (fun b => !(((locsOf db existing.id).map (fun l => l.backendID)).contains b.id)) = []
  · rw [hstep]
    simp only [handleDuplicateImage]
    rw [hm0]
    simp
  · have hne : ((resolveBackends backendsTable targets).filter
        (fun b => !(((locsOf db existing.id).map
          (fun l => l.backendID)).contains b.id))).isEmpty = false := by
      simpa [List.isEmpty_iff] using hm0
    rw [hstep]
    simp only [handleDuplicateImage]
    simp only [hne, Bool.false_eq_true, if_false]
    refine ⟨?_, ?_, ?_, fun h0 => absurd h0 hm0⟩
    · exact distribute_images_eq db existing.id _ manager ur
    · trivial
    · exact distribute_attempted_eq db existing.id _ manager ur hMgr

/-- Witness for C7, at the spec's own scenario: owner 1 re-uploads bytes it
already stores on backend A, targeting backends A and C; only C is
attempted, no Image row is created. -/
theorem C7_same_owner_reupload_witness :
    (UploadImage
        ⟨[⟨1, "uuid-1", "abc123", "cat.png", 100, "image/png", 0, 0, false, 1⟩],
         [⟨1, 1, 1, "local", "/uploads/uuid-1.png", "", true, 0⟩], 2, 2⟩
        ⟨"cat.png", 100, "image/png"⟩ 1 "abc123" (some (2, 3)) "uuid-9" [1, 3]
        [⟨1, "A", "local", 1, true, true⟩, ⟨3, "C", "oss", 3, true, true⟩]
        (fun i => if i == 1 then some ⟨"local"⟩ else
          if i == 3 then some ⟨"oss"⟩ else none)
        (fun _ => some "https://h/up/x.png@@@up/x.png") true).db.images =
      [⟨1, "uuid-1", "abc123", "cat.png", 100, "image/png", 0, 0, false, 1⟩] ∧
    (UploadImage
        ⟨[⟨1, "uuid-1", "abc123", "cat.png", 100, "image/png", 0, 0, false, 1⟩],
         [⟨1, 1, 1, "local", "/uploads/uuid-1.png", "", true, 0⟩], 2, 2⟩
        ⟨"cat.png", 100, "image/png"⟩ 1 "abc123" (some (2, 3)) "uuid-9" [1, 3]
        [⟨1, "A", "local", 1, true, true⟩, ⟨3, "C", "oss", 3, true, true⟩]
        (fun i => if i == 1 then some ⟨"local"⟩ else
          if i == 3 then some ⟨"oss"⟩ else none)
        (fun _ => some "https://h/up/x.png@@@up/x.png") true).result =
      .ok ⟨1, "uuid-1", "abc123", "cat.png", 100, "image/png", 0, 0, false, 1⟩ ∧
    (UploadImage
        ⟨[⟨1, "uuid-1", "abc123", "cat.png", 100, "image/png", 0, 0, false, 1⟩],
         [⟨1, 1, 1, "local", "/uploads/uuid-1.png", "", true, 0⟩], 2, 2⟩
        ⟨"cat.png", 100, "image/png"⟩ 1 "abc123" (some (2, 3)) "uuid-9" [1, 3]
        [⟨1, "A", "local", 1, true, true⟩, ⟨3, "C", "oss", 3, true, true⟩]
        (fun i => if i == 1 then some ⟨"local"⟩ else
          if i == 3 then some ⟨"oss"⟩ else none)
        (fun _ => some "https://h/up/x.png@@@up/x.png") true).attempted =
      ([⟨3, "C", "oss", 3, true, true⟩] : List Backend).map (fun b => b.id) ∧
    ([(⟨3, "C", "oss", 3, true, true⟩ : Backend)] = [] →
      UploadImage
        ⟨[⟨1, "uuid-1", "abc123", "cat.png", 100, "image/png", 0, 0, false, 1⟩],
         [⟨1, 1, 1, "local", "/uploads/uuid-1.png", "", true, 0⟩], 2, 2⟩
        ⟨"cat.png", 100, "image/png"⟩ 1 "abc123" (some (2, 3)) "uuid-9" [1, 3]
        [⟨1, "A", "local", 1, true, true⟩, ⟨3, "C", "oss", 3, true, true⟩]
        (fun i => if i == 1 then some ⟨"local"⟩ else
          if i == 3 then some ⟨"oss"⟩ else none)
        (fun _ => some "https://h/up/x.png@@@up/x.png") true =
        ⟨⟨[⟨1, "uuid-1", "abc123", "cat.png", 100, "image/png", 0, 0, false, 1⟩],
          [⟨1, 1, 1, "local", "/uploads/uuid-1.png", "", true, 0⟩], 2, 2⟩,
         .ok ⟨1, "uuid-1", "abc123", "cat.png", 100, "image/png", 0, 0, false, 1⟩,
         []⟩) :=
  C7_same_owner_reupload _ _ 1 "abc123" (some (2, 3)) "uuid-9" [1, 3] _ _ _ true
    ⟨1, "uuid-1", "abc123", "cat.png", 100, "image/png", 0, 0, false, 1⟩
    [⟨3, "C", "oss", 3, true, true⟩] (by decide) (by decide) (by decide)

theorem assignIds_view (n : Nat) (ls : List StorageLocation) :
    (assignIds n ls).map
      (fun l => (l.backendID, l.storageType, l.url, l.deleteIdentifier, l.isActive)) =
    ls.map
      (fun l => (l.backendID, l.storageType, l.url, l.deleteIdentifier, l.isActive)) := by
  induction ls generalizing n with
  | nil => rfl
  | cons a rest ih => simp [assignIds, ih]

theorem assignIds_imageID_mem (n : Nat) (ls : List StorageLocation)
    (l : StorageLocation) (hl : l ∈ assignIds n ls) :
    ∃ l0 ∈ ls, l.imageID = l0.imageID := by
  induction ls generalizing n with
  | nil => simp [assignIds] at hl
  | cons a rest ih =>
    simp only [assignIds, List.mem_cons] at hl
    rcases hl with rfl | h2
    · exact ⟨a, List.mem_cons_self a rest, rfl⟩
    · obtain ⟨l0, hm, he⟩ := ih (n + 1) h2
      exact ⟨l0, List.mem_cons_of_mem a hm, he⟩

theorem locsOf_appendLocations (db : DBState) (ls : List StorageLocation)
    (iid : Nat) (hdb : locsOf db iid = []) (hls : ∀ l ∈ ls, l.imageID = iid) :
    locsOf (appendLocations db ls) iid = assignIds db.nextLocationID ls := by
  show (db.locations ++ assignIds db.nextLocationID ls).filter
      (fun l => l.imageID == iid) = assignIds db.nextLocationID ls
  rw [List.filter_append]
  rw [show db.locations.filter (fun l => l.imageID == iid) = [] from hdb]
  rw [List.nil_append]
  apply List.filter_eq_self.mpr
  intro l hl
  obtain ⟨l0, hm, he⟩ := assignIds_imageID_mem db.nextLocationID ls l hl
  simp [he, hls l0 hm]

theorem handleSharedImage_nil_eq (db : DBState) (file : FileHeader) (userID : Nat)
    (fileMD5 : String) (other : Image) (dims : Option (Int × Int)) (newUUID : String)
    (lck : Bool)
    (h : sharedLocationCopies (locsOf db other.id) db.nextImageID = []) :
    handleSharedImage db file userID fileMD5 other dims newUUID lck =
      ⟨{ db with
          images := db.images ++
            [sharedImageFor db file userID fileMD5 other dims newUUID],
          nextImageID := db.nextImageID + 1 },
        .ok (sharedImageFor db file userID fileMD5 other dims newUUID), []⟩ := by
  simp only [handleSharedImage]
  rw [show sharedLocationCopies (locsOf db other.id)
      (sharedImageFor db file userID fileMD5 other dims newUUID).id = [] from h]
  simp

theorem handleSharedImage_ok_eq (db : DBState) (file : FileHeader) (userID : Nat)
    (fileMD5 : String) (other : Image) (dims : Option (Int × Int)) (newUUID : String)
    (h : sharedLocationCopies (locsOf db other.id) db.nextImageID ≠ []) :
    handleSharedImage db file userID fileMD5 other dims newUUID true =
      ⟨appendLocations
          { db with
            images := db.images ++
              [sharedImageFor db file userID fileMD5 other dims newUUID],
            nextImageID := db.nextImageID + 1 }
          (sharedLocationCopies (locsOf db other.id) db.nextImageID),
        .ok (sharedImageFor db file userID fileMD5 other dims newUUID), []⟩ := by
  have hne : (sharedLocationCopies (locsOf db other.id) db.nextImageID).isEmpty
      = false := by
    simpa [List.isEmpty_iff] using h
  simp only [handleSharedImage]
  rw [show sharedLocationCopies (locsOf db other.id)
      (sharedImageFor db file userID fileMD5 other dims newUUID).id =
    sharedLocationCopies (locsOf db other.id) db.nextImageID from rfl]
  simp only [hne, Bool.false_eq_true, if_false, if_true]

theorem handleSharedImage_fail_eq (db : DBState) (file : FileHeader) (userID : Nat)
    (fileMD5 : String) (other : Image) (dims : Option (Int × Int)) (newUUID : String)
    (h : sharedLocationCopies (locsOf db other.id) db.nextImageID ≠ []) :
    handleSharedImage db file userID fileMD5 other dims newUUID false =
      ⟨{ db with
          images := (db.images ++
            [sharedImageFor db file userID fileMD5 other dims newUUID]).filter
            (fun i => i.id !=
              (sharedImageFor db file userID fileMD5 other dims newUUID).id),
          nextImageID := db.nextImageID + 1 },
        .error "failed to link shared storage locations", []⟩ := by
  have hne : (sharedLocationCopies (locsOf db other.id) db.nextImageID).isEmpty
      = false := by
    simpa [List.isEmpty_iff] using h
  simp only [handleSharedImage]
  rw [show sharedLocationCopies (locsOf db other.id)
      (sharedImageFor db file userID fileMD5 other dims newUUID).id =
    sharedLocationCopies (locsOf db other.id) db.nextImageID from rfl]
  simp only [hne, Bool.false_eq_true, if_false]

/-! ## C2 -/

/-- C2: when the content hash exists only under a different owner,
`UploadImage` takes the sharing path: it creates a brand-new Image row for
the uploading user (fresh identifier, same hash), attempts zero physical
uploads, and creates StorageLocation rows copying the other owner's active
locations (same backend, kind tag, URL and delete identifier, created
active); if creating the linking locations fails, the new Image row is
removed again before the error is returned. -/
theorem C2_cross_owner_shared_upload (db : DBState) (file : FileHeader)
    (userID : Nat) (fileMD5 : String) (dims : Option (Int × Int)) (newUUID : String)
    (targets : List Nat) (backendsTable : List Backend)
    (manager : Nat → Option Uploader) (ur : Nat → Option String)
    (locCreateOK : Bool) (other : Image) (hwf : db.wf)
    (hNoOwn : db.images.find? (fun i => i.md5 == fileMD5 && i.userID == userID) = none)
    (hOther : db.images.find? (fun i => i.md5 == fileMD5) = some other)
    (hFreshU : ∀ i ∈ db.images, i.uuid ≠ newUUID) :
    UploadImage db file userID fileMD5 dims newUUID targets backendsTable manager ur
        locCreateOK =
      handleSharedImage db file userID fileMD5 other dims newUUID locCreateOK ∧
    (handleSharedImage db file userID fileMD5 other dims newUUID locCreateOK).attempted
      = [] ∧
    (locCreateOK = true →
      ∃ img,
        (handleSharedImage db file userID fileMD5 other dims newUUID
          locCreateOK).result = .ok img ∧
        img.md5 = fileMD5 ∧ img.userID = userID ∧ img.uuid = newUUID ∧
        (∀ i ∈ db.images, i.uuid ≠ img.uuid ∧ i.id ≠ img.id) ∧
        (handleSharedImage db file userID fileMD5 other dims newUUID
          locCreateOK).db.images = db.images ++ [img] ∧
        (locsOf (handleSharedImage db file userID fileMD5 other dims newUUID
            locCreateOK).db img.id).map
          (fun l => (l.backendID, l.storageType, l.url, l.deleteIdentifier, l.isActive))
          = ((locsOf db other.id).filter (fun l => l.isActive)).map
            (fun l => (l.backendID, l.storageType, l.url, l.deleteIdentifier, true))) ∧
    (locCreateOK = false → (locsOf db other.id).filter (fun l => l.isActive) ≠ [] →
      (∃ msg, (handleSharedImage db file userID fileMD5 other dims newUUID
          locCreateOK).result = .error msg) ∧
      (handleSharedImage db file userID fileMD5 other dims newUUID
        locCreateOK).db.images = db.images ∧
      (handleSharedImage db file userID fileMD5 other dims newUUID
        locCreateOK).db.locations = db.locations) := by
  have hfresh2 : ∀ i ∈ db.images,
      i.uuid ≠ (sharedImageFor db file userID fileMD5 other dims newUUID).uuid ∧
      i.id ≠ (sharedImageFor db file userID fileMD5 other dims newUUID).id := by
    intro i hi
    refine ⟨hFreshU i hi, ?_⟩
    have := hwf.1 i hi
    show i.id ≠ db.nextImageID
    omega
  refine ⟨by simp only [UploadImage, hNoOwn, hOther], ?_, ?_, ?_⟩
  · by_cases hcop : sharedLocationCopies (locsOf db other.id) db.nextImageID = []
    · rw [handleSharedImage_nil_eq db file userID fileMD5 other dims newUUID
        locCreateOK hcop]
    · cases locCreateOK
      · rw [handleSharedImage_fail_eq db file userID fileMD5 other dims newUUID hcop]
      · rw [handleSharedImage_ok_eq db file userID fileMD5 other dims newUUID hcop]
  · intro hok
    subst hok
    by_cases hcop : sharedLocationCopies (locsOf db other.id) db.nextImageID = []
    · have hfilnil : (locsOf db other.id).filter (fun l => l.isActive) = [] :=
        List.map_eq_nil_iff.mp hcop
      rw [handleSharedImage_nil_eq db file userID fileMD5 other dims newUUID true hcop]
      refine ⟨sharedImageFor db file userID fileMD5 other dims newUUID,
        rfl, rfl, rfl, rfl, hfresh2, rfl, ?_⟩
      rw [show locsOf
          { db with
            images := db.images ++
              [sharedImageFor db file userID fileMD5 other dims newUUID],
            nextImageID := db.nextImageID + 1 }
          (sharedImageFor db file userID fileMD5 other dims newUUID).id =
        ([] : List StorageLocation) from locsOf_next_eq_nil db hwf]
      rw [hfilnil]
      rfl
    · rw [handleSharedImage_ok_eq db file userID fileMD5 other dims newUUID hcop]
      refine ⟨sharedImageFor db file userID fileMD5 other dims newUUID,
        rfl, rfl, rfl, rfl, hfresh2, rfl, ?_⟩
      have hls : ∀ l ∈ sharedLocationCopies (locsOf db other.id) db.nextImageID,
          l.imageID = db.nextImageID := by
        intro l hl
        simp only [sharedLocationCopies, List.mem_map] at hl
        obtain ⟨l1, _, he⟩ := hl
        rw [← he]
      have hloc : locsOf (appendLocations
          { db with
            images := db.images ++
              [sharedImageFor db file userID fileMD5 other dims newUUID],
            nextImageID := db.nextImageID + 1 }
          (sharedLocationCopies (locsOf db other.id) db.nextImageID))
          (sharedImageFor db file userID fileMD5 other dims newUUID).id =
          assignIds db.nextLocationID
            (sharedLocationCopies (locsOf db other.id) db.nextImageID) :=
        locsOf_appendLocations _ _ db.nextImageID (locsOf_next_eq_nil db hwf) hls
      rw [hloc, assignIds_view]
      simp [sharedLocationCopies, List.map_map, Function.comp]
  · intro hfail hne
    subst hfail
    have hcop : sharedLocationCopies (locsOf db other.id) db.nextImageID ≠ [] := by
      intro h0
      exact hne (List.map_eq_nil_iff.mp h0)
    rw [handleSharedImage_fail_eq db file userID fileMD5 other dims newUUID hcop]
    refine ⟨⟨_, rfl⟩, ?_, rfl⟩
    show (db.images ++ [sharedImageFor db file userID fileMD5 other dims newUUID]).filter
        (fun i => i.id !=
          (sharedImageFor db file userID fileMD5 other dims newUUID).id) = db.images
    rw [List.filter_append]
    have h1 : db.images.filter (fun i => i.id !=
        (sharedImageFor db file userID fileMD5 other dims newUUID).id) = db.images :=
      List.filter_eq_self.mpr (fun i hi => by simpa using (hfresh2 i hi).2)
    have h2 : ([sharedImageFor db file userID fileMD5 other dims newUUID] :
        List Image).filter (fun i => i.id !=
          (sharedImageFor db file userID fileMD5 other dims newUUID).id) = [] := by
      simp
    rw [h1, h2, List.append_nil]

/-- Witness for C2 at the spec's sharing scenario: owner 2 uploads bytes that
owner 1 already stores, one active and one inactive location present. -/
theorem C2_cross_owner_shared_upload_witness :
    UploadImage
        ⟨[⟨1, "uuid-1", "abc123", "cat.png", 100, "image/png", 0, 0, false, 1⟩],
         [⟨1, 1, 1, "local", "/uploads/uuid-1.png", "", true, 0⟩,
          ⟨2, 1, 2, "sm.ms", "https://s/u.png", "hh", false, 0⟩], 2, 3⟩
        ⟨"cat.png", 100, "image/png"⟩ 2 "abc123" none "uuid-2" [] []
        (fun _ => none) (fun _ => none) true =
      handleSharedImage
        ⟨[⟨1, "uuid-1", "abc123", "cat.png", 100, "image/png", 0, 0, false, 1⟩],
         [⟨1, 1, 1, "local", "/uploads/uuid-1.png", "", true, 0⟩,
          ⟨2, 1, 2, "sm.ms", "https://s/u.png", "hh", false, 0⟩], 2, 3⟩
        ⟨"cat.png", 100, "image/png"⟩ 2 "abc123"
        ⟨1, "uuid-1", "abc123", "cat.png", 100, "image/png", 0, 0, false, 1⟩
        none "uuid-2" true ∧
    (handleSharedImage
        ⟨[⟨1, "uuid-1", "abc123", "cat.png", 100, "image/png", 0, 0, false, 1⟩],
         [⟨1, 1, 1, "local", "/uploads/uuid-1.png", "", true, 0⟩,
          ⟨2, 1, 2, "sm.ms", "https://s/u.png", "hh", false, 0⟩], 2, 3⟩
        ⟨"cat.png", 100, "image/png"⟩ 2 "abc123"
        ⟨1, "uuid-1", "abc123", "cat.png", 100, "image/png", 0, 0, false, 1⟩
        none "uuid-2" true).attempted = [] ∧
    (true = true →
      ∃ img,
        (handleSharedImage
          ⟨[⟨1, "uuid-1", "abc123", "cat.png", 100, "image/png", 0, 0, false, 1⟩],
           [⟨1, 1, 1, "local", "/uploads/uuid-1.png", "", true, 0⟩,
            ⟨2, 1, 2, "sm.ms", "https://s/u.png", "hh", false, 0⟩], 2, 3⟩
          ⟨"cat.png", 100, "image/png"⟩ 2 "abc123"
          ⟨1, "uuid-1", "abc123", "cat.png", 100, "image/png", 0, 0, false, 1⟩
          none "uuid-2" true).result = .ok img ∧
        img.md5 = "abc123" ∧ img.userID = 2 ∧ img.uuid = "uuid-2" ∧
        (∀ i ∈ [(⟨1, "uuid-1", "abc123", "cat.png", 100, "image/png", 0, 0, false, 1⟩ :
            Image)], i.uuid ≠ img.uuid ∧ i.id ≠ img.id) ∧
        (handleSharedImage
          ⟨[⟨1, "uuid-1", "abc123", "cat.png", 100, "image/png", 0, 0, false, 1⟩],
           [⟨1, 1, 1, "local", "/uploads/uuid-1.png", "", true, 0⟩,
            ⟨2, 1, 2, "sm.ms", "https://s/u.png", "hh", false, 0⟩], 2, 3⟩
          ⟨"cat.png", 100, "image/png"⟩ 2 "abc123"
          ⟨1, "uuid-1", "abc123", "cat.png", 100, "image/png", 0, 0, false, 1⟩
          none "uuid-2" true).db.images =
          [⟨1, "uuid-1", "abc123", "cat.png", 100, "image/png", 0, 0, false, 1⟩] ++
            [img] ∧
        (locsOf (handleSharedImage
            ⟨[⟨1, "uuid-1", "abc123", "cat.png", 100, "image/png", 0, 0, false, 1⟩],
             [⟨1, 1, 1, "local", "/uploads/uuid-1.png", "", true, 0⟩,
              ⟨2, 1, 2, "sm.ms", "https://s/u.png", "hh", false, 0⟩], 2, 3⟩
            ⟨"cat.png", 100, "image/png"⟩ 2 "abc123"
            ⟨1, "uuid-1", "abc123", "cat.png", 100, "image/png", 0, 0, false, 1⟩
            none "uuid-2" true).db img.id).map
          (fun l => (l.backendID, l.storageType, l.url, l.deleteIdentifier, l.isActive))
          = ((locsOf
              ⟨[⟨1, "uuid-1", "abc123", "cat.png", 100, "image/png", 0, 0, false, 1⟩],
               [⟨1, 1, 1, "local", "/uploads/uuid-1.png", "", true, 0⟩,
                ⟨2, 1, 2, "sm.ms", "https://s/u.png", "hh", false, 0⟩], 2, 3⟩
              1).filter (fun l => l.isActive)).map
            (fun l => (l.backendID, l.storageType, l.url, l.deleteIdentifier, true))) ∧
    (true = false →
      (locsOf
          ⟨[⟨1, "uuid-1", "abc123", "cat.png", 100, "image/png", 0, 0, false, 1⟩],
           [⟨1, 1, 1, "local", "/uploads/uuid-1.png", "", true, 0⟩,
            ⟨2, 1, 2, "sm.ms", "https://s/u.png", "hh", false, 0⟩], 2, 3⟩
          1).filter (fun l => l.isActive) ≠ [] →
      (∃ msg, (handleSharedImage
          ⟨[⟨1, "uuid-1", "abc123", "cat.png", 100, "image/png", 0, 0, false, 1⟩],
           [⟨1, 1, 1, "local", "/uploads/uuid-1.png", "", true, 0⟩,
            ⟨2, 1, 2, "sm.ms", "https://s/u.png", "hh", false, 0⟩], 2, 3⟩
          ⟨"cat.png", 100, "image/png"⟩ 2 "abc123"
          ⟨1, "uuid-1", "abc123", "cat.png", 100, "image/png", 0, 0, false, 1⟩
          none "uuid-2" true).result = .error msg) ∧
      (handleSharedImage
          ⟨[⟨1, "uuid-1", "abc123", "cat.png", 100, "image/png", 0, 0, false, 1⟩],
           [⟨1, 1, 1, "local", "/uploads/uuid-1.png", "", true, 0⟩,
            ⟨2, 1, 2, "sm.ms", "https://s/u.png", "hh", false, 0⟩], 2, 3⟩
          ⟨"cat.png", 100, "image/png"⟩ 2 "abc123"
          ⟨1, "uuid-1", "abc123", "cat.png", 100, "image/png", 0, 0, false, 1⟩
          none "uuid-2" true).db.images =
        [⟨1, "uuid-1", "abc123", "cat.png", 100, "image/png", 0, 0, false, 1⟩] ∧
      (handleSharedImage
          ⟨[⟨1, "uuid-1", "abc123", "cat.png", 100, "image/png", 0, 0, false, 1⟩],
           [⟨1, 1, 1, "local", "/uploads/uuid-1.png", "", true, 0⟩,
            ⟨2, 1, 2, "sm.ms", "https://s/u.png", "hh", false, 0⟩], 2, 3⟩
          ⟨"cat.png", 100, "image/png"⟩ 2 "abc123"
          ⟨1, "uuid-1", "abc123", "cat.png", 100, "image/png", 0, 0, false, 1⟩
          none "uuid-2" true).db.locations =
        [⟨1, 1, 1, "local", "/uploads/uuid-1.png", "", true, 0⟩,
         ⟨2, 1, 2, "sm.ms", "https://s/u.png", "hh", false, 0⟩]) :=
  C2_cross_owner_shared_upload
    ⟨[⟨1, "uuid-1", "abc123", "cat.png", 100, "image/png", 0, 0, false, 1⟩],
     [⟨1, 1, 1, "local", "/uploads/uuid-1.png", "", true, 0⟩,
      ⟨2, 1, 2, "sm.ms", "https://s/u.png", "hh", false, 0⟩], 2, 3⟩
    ⟨"cat.png", 100, "image/png"⟩ 2 "abc123" none "uuid-2" [] []
    (fun _ => none) (fun _ => none) true
    ⟨1, "uuid-1", "abc123", "cat.png", 100, "image/png", 0, 0, false, 1⟩
    (by decide) (by decide) (by decide) (by decide)



/-! ## Separator lemmas for C8 -/

theorem takeUntilAts_prefix (s : List Char) : takeUntilAts s <+: s := by
  induction s using takeUntilAts.induct with
  | case1 => simp [takeUntilAts]
  | case2 c1 c2 c3 rest3 h => simp [takeUntilAts, h]
  | case3 c1 c2 c3 rest3 h ih =>
    rw [takeUntilAts, if_neg (by simpa using h)]
    exact List.cons_prefix_cons.mpr ⟨rfl, ih⟩
  | case4 c1 rest h1 ih =>
    rcases rest with _ | ⟨x, _ | ⟨y, r⟩⟩
    · simp [takeUntilAts]
    · rw [show takeUntilAts [c1, x] = c1 :: takeUntilAts [x] from rfl]
      exact List.cons_prefix_cons.mpr ⟨rfl, ih⟩
    · exact absurd rfl (h1 x y r)

theorem takeUntilAts_no_run (s : List Char) :
    hasAtsRun (takeUntilAts s) = false := by
  induction s using takeUntilAts.induct with
  | case1 => simp [takeUntilAts, hasAtsRun]
  | case2 c1 c2 c3 rest3 h => simp [takeUntilAts, h, hasAtsRun]
  | case3 c1 c2 c3 rest3 h ih =>
    rw [takeUntilAts, if_neg (by simpa using h)]
    rcases ht : takeUntilAts (c2 :: c3 :: rest3) with _ | ⟨t1, _ | ⟨t2, tr⟩⟩
    · simp [hasAtsRun]
    · simp [hasAtsRun]
    · have hpre := takeUntilAts_prefix (c2 :: c3 :: rest3)
      rw [ht] at hpre
      obtain ⟨he1, hpre2⟩ := List.cons_prefix_cons.mp hpre
      obtain ⟨he2, _⟩ := List.cons_prefix_cons.mp hpre2
      subst he1; subst he2
      rw [hasAtsRun, if_neg (by simpa using h)]
      rw [← ht]
      exact ih
  | case4 c1 rest h1 ih =>
    rcases rest with _ | ⟨x, _ | ⟨y, r⟩⟩
    · simp [takeUntilAts, hasAtsRun]
    · rw [show takeUntilAts [c1, x] = c1 :: takeUntilAts [x] from rfl]
      rw [show takeUntilAts [x] = [x] from rfl]
      simp [hasAtsRun]
    · exact absurd rfl (h1 x y r)

theorem splitAtsAux_head (s acc : List Char) :
    ∃ tail, splitAtsAux s acc = (acc.reverse ++ takeUntilAts s) :: tail := by
  induction s, acc using splitAtsAux.induct with
  | case1 acc => exact ⟨[], by simp [splitAtsAux, takeUntilAts]⟩
  | case2 c1 c2 c3 rest3 acc h ih =>
    exact ⟨splitAtsAux rest3 [], by simp [splitAtsAux, takeUntilAts, h]⟩
  | case3 c1 c2 c3 rest3 acc h ih =>
    obtain ⟨tail, ht⟩ := ih
    refine ⟨tail, ?_⟩
    rw [splitAtsAux, if_neg (by simpa using h), ht,
      takeUntilAts, if_neg (by simpa using h)]
    simp
  | case4 c1 rest acc h1 ih =>
    rcases rest with _ | ⟨x, _ | ⟨y, r⟩⟩
    · obtain ⟨tail, ht⟩ := ih
      refine ⟨tail, ?_⟩
      rw [show splitAtsAux [c1] acc = splitAtsAux [] (c1 :: acc) from rfl, ht]
      simp [takeUntilAts]
    · obtain ⟨tail, ht⟩ := ih
      refine ⟨tail, ?_⟩
      rw [show splitAtsAux [c1, x] acc = splitAtsAux [x] (c1 :: acc) from rfl, ht]
      rw [show takeUntilAts [c1, x] = c1 :: takeUntilAts [x] from rfl]
      simp
    · exact absurd rfl (h1 x y r)

theorem splitAtsAux_no_run (s acc : List Char) (h : hasAtsRun s = false) :
    splitAtsAux s acc = [acc.reverse ++ s] := by
  induction s, acc using splitAtsAux.induct with
  | case1 acc => simp [splitAtsAux]
  | case2 c1 c2 c3 rest3 acc hc ih =>
    rw [hasAtsRun, if_pos hc] at h
    cases h
  | case3 c1 c2 c3 rest3 acc hc ih =>
    rw [hasAtsRun, if_neg (by simpa using hc)] at h
    rw [splitAtsAux, if_neg (by simpa using hc), ih h]
    simp
  | case4 c1 rest acc h1 ih =>
    rcases rest with _ | ⟨x, _ | ⟨y, r⟩⟩
    · rw [show splitAtsAux [c1] acc = splitAtsAux [] (c1 :: acc) from rfl]
      simp [splitAtsAux]
    · rw [show splitAtsAux [c1, x] acc = splitAtsAux [x] (c1 :: acc) from rfl]
      rw [ih (by rw [show hasAtsRun [c1, x] = hasAtsRun [x] from rfl] at h; exact h)]
      simp
    · exact absurd rfl (h1 x y r)

theorem listContainsSub_ats (s : List Char) :
    listContainsSub s ['@', '@', '@'] = hasAtsRun s := by
  induction s with
  | nil => rfl
  | cons c rest ih =>
    rw [listContainsSub, ih]
    rcases rest with _ | ⟨c2, _ | ⟨c3, r⟩⟩
    · simp [List.isPrefixOf, hasAtsRun]
    · simp [List.isPrefixOf, hasAtsRun]
    · rw [hasAtsRun]
      by_cases hc : (c == '@' && c2 == '@' && c3 == '@') = true
      · rw [if_pos hc]
        simp only [Bool.and_eq_true, beq_iff_eq] at hc
        obtain ⟨⟨e1, e2⟩, e3⟩ := hc
        subst e1; subst e2; subst e3
        simp [List.isPrefixOf]
      · rw [if_neg hc]
        have hp : (['@', '@', '@'] : List Char).isPrefixOf (c :: c2 :: c3 :: r)
            = false := by
          simp only [List.isPrefixOf, Bool.and_eq_true, beq_iff_eq] at hc ⊢
          by_contra hx
          simp only [Bool.not_eq_false, Bool.and_eq_true, beq_iff_eq] at hx
          exact hc ⟨⟨hx.1.symm, hx.2.1.symm⟩, hx.2.2.1.symm⟩
        rw [hp]
        simp [hasAtsRun]

theorem goSplitAts_no_sep (r : String) (h : containsSub r "@@@" = false) :
    goSplitAts r = [r] := by
  have hrun : hasAtsRun r.toList = false := by
    rw [← listContainsSub_ats r.toList]
    exact h
  unfold goSplitAts
  rw [splitAtsAux_no_run r.toList [] hrun]
  rfl

theorem goSplitAts_pair (r a b : String) (h : goSplitAts r = [a, b]) :
    containsSub a "@@@" = false := by
  obtain ⟨tail, ht⟩ := splitAtsAux_head r.toList []
  unfold goSplitAts at h
  rw [ht] at h
  simp only [List.map_cons, List.reverse_nil, List.nil_append] at h
  injection h with h1 h2
  rw [← h1]
  show listContainsSub (List.asString (takeUntilAts r.toList)).toList
    ['@', '@', '@'] = false
  rw [show (List.asString (takeUntilAts r.toList)).toList =
    takeUntilAts r.toList from rfl]
  rw [listContainsSub_ats]
  exact takeUntilAts_no_run r.toList

/-! ## C8 -/

/-- C8 counterexample: the claim fails as stated.  For a descriptor in which
the separator occurs twice, `parseUploadResult` stores the whole descriptor —
separator included — as the URL; and for an `oss` descriptor without the
separator the delete identifier is the object key derived from the URL's
path, not the empty string. -/
theorem C8_counterexample_stored_url :
    containsSub (parseUploadResult "https://img.example/a@@@b@@@c" "sm.ms").1
      "@@@" = true ∧
    (parseUploadResult "https://img.example/a@@@b@@@c" "sm.ms").1 =
      "https://img.example/a@@@b@@@c" ∧
    parseUploadResult "https://host/up/img.png" "oss" =
      ("https://host/up/img.png", "up/img.png") := by
  decide

/-- C8 (amended): for the backend kinds that emit the separator (`sm.ms`,
`oss`), a descriptor split by `@@@` into exactly two parts stores the part
before the separator as the URL — which then contains no separator — and the
part after as the delete identifier; a descriptor without the separator is
stored whole as the URL, with an empty delete identifier for `sm.ms` (for
`oss` the delete identifier is instead derived from the URL's path); a
descriptor with two or more separator occurrences is stored whole as the
URL. -/
theorem C8_descriptor_decoding (result ty a b : String)
    (hty : ty = "sm.ms" ∨ ty = "oss") :
    (goSplitAts result = [a, b] →
      parseUploadResult result ty = (a, b) ∧ containsSub a "@@@" = false) ∧
    (containsSub result "@@@" = false →
      (parseUploadResult result ty).1 = result ∧
      (ty = "sm.ms" → (parseUploadResult result ty).2 = "")) ∧
    (2 < (goSplitAts result).length → (parseUploadResult result ty).1 = result) := by
  refine ⟨?_, ?_, ?_⟩
  · intro hpair
    refine ⟨?_, goSplitAts_pair result a b hpair⟩
    rcases hty with rfl | rfl <;> simp [parseUploadResult, hpair]
  · intro hno
    have hs := goSplitAts_no_sep result hno
    rcases hty with rfl | rfl
    · refine ⟨?_, ?_⟩
      · simp [parseUploadResult, hs]
      · intro _
        simp [parseUploadResult, hs]
    · refine ⟨?_, ?_⟩
      · simp [parseUploadResult, hs]
      · intro hcontra
        exact absurd hcontra (by decide)
  · intro hlen
    have hf : ((goSplitAts result).length == 2) = false := by
      simp only [beq_eq_false_iff_ne, ne_eq]
      omega
    rcases hty with rfl | rfl <;> simp [parseUploadResult, hf]

/-- Witness for C8 at a two-part sm.ms descriptor and a separator-free oss
descriptor. -/
theorem C8_descriptor_decoding_witness :
    ((goSplitAts "https://s/u.png@@@tok" = ["https://s/u.png", "tok"] →
      parseUploadResult "https://s/u.png@@@tok" "sm.ms" =
        ("https://s/u.png", "tok") ∧
      containsSub "https://s/u.png" "@@@" = false) ∧
    (containsSub "https://s/u.png@@@tok" "@@@" = false →
      (parseUploadResult "https://s/u.png@@@tok" "sm.ms").1 =
        "https://s/u.png@@@tok" ∧
      (("sm.ms" : String) = "sm.ms" →
        (parseUploadResult "https://s/u.png@@@tok" "sm.ms").2 = "")) ∧
    (2 < (goSplitAts "https://s/u.png@@@tok").length →
      (parseUploadResult "https://s/u.png@@@tok" "sm.ms").1 =
        "https://s/u.png@@@tok")) ∧
    ((goSplitAts "https://h/up/x.png" = ["u", "v"] →
      parseUploadResult "https://h/up/x.png" "oss" = ("u", "v") ∧
      containsSub "u" "@@@" = false) ∧
    (containsSub "https://h/up/x.png" "@@@" = false →
      (parseUploadResult "https://h/up/x.png" "oss").1 = "https://h/up/x.png" ∧
      (("oss" : String) = "sm.ms" →
        (parseUploadResult "https://h/up/x.png" "oss").2 = "")) ∧
    (2 < (goSplitAts "https://h/up/x.png").length →
      (parseUploadResult "https://h/up/x.png" "oss").1 = "https://h/up/x.png")) :=
  ⟨C8_descriptor_decoding "https://s/u.png@@@tok" "sm.ms" "https://s/u.png" "tok"
      (Or.inl rfl),
    C8_descriptor_decoding "https://h/up/x.png" "oss" "u" "v" (Or.inr rfl)⟩

/-! ## C5 -/

/-- C5 counterexample: the claim's consequences fail as stated — an upload
call can return successfully while the Image row it created has zero
StorageLocation rows.  Owner 1's image exists with a single *inactive*
location; owner 2 uploads the same bytes, the sharing path copies only
active locations (none), and the call succeeds leaving owner 2's new Image
row with no StorageLocation rows at all. -/
theorem C5_counterexample_orphan_after_success :
    (UploadImage
        ⟨[⟨1, "uuid-1", "abc123", "cat.png", 100, "image/png", 0, 0, false, 1⟩],
         [⟨1, 1, 1, "sm.ms", "https://s/u.png", "hh", false, 0⟩], 2, 2⟩
        ⟨"cat.png", 100, "image/png"⟩ 2 "abc123" none "uuid-2" []
        [⟨1, "A", "sm.ms", 1, true, true⟩] (fun _ => some ⟨"sm.ms"⟩)
        (fun _ => some "https://s/u.png@@@hh") true).result =
      .ok ⟨2, "uuid-2", "abc123", "cat.png", 100, "image/png", 0, 0, false, 2⟩ ∧
    ⟨2, "uuid-2", "abc123", "cat.png", 100, "image/png", 0, 0, false, 2⟩ ∈
      (UploadImage
        ⟨[⟨1, "uuid-1", "abc123", "cat.png", 100, "image/png", 0, 0, false, 1⟩],
         [⟨1, 1, 1, "sm.ms", "https://s/u.png", "hh", false, 0⟩], 2, 2⟩
        ⟨"cat.png", 100, "image/png"⟩ 2 "abc123" none "uuid-2" []
        [⟨1, "A", "sm.ms", 1, true, true⟩] (fun _ => some ⟨"sm.ms"⟩)
        (fun _ => some "https://s/u.png@@@hh") true).db.images ∧
    locsOf (UploadImage
        ⟨[⟨1, "uuid-1", "abc123", "cat.png", 100, "image/png", 0, 0, false, 1⟩],
         [⟨1, 1, 1, "sm.ms", "https://s/u.png", "hh", false, 0⟩], 2, 2⟩
        ⟨"cat.png", 100, "image/png"⟩ 2 "abc123" none "uuid-2" []
        [⟨1, "A", "sm.ms", 1, true, true⟩] (fun _ => some ⟨"sm.ms"⟩)
        (fun _ => some "https://s/u.png@@@hh") true).db 2 = [] := by
  decide

/-- C5 (amended): on the genuinely-new-artifact path, when every backend
upload fails `UploadImage` deletes the just-created Image row and returns an
error, leaving the image and location tables exactly as before the call; and
whenever the new-artifact path returns successfully, the created Image row
has at least one StorageLocation row.  (The global "no Image row persists
with zero locations after any successful upload" claim fails on the
cross-owner sharing path, see the counterexample.) -/
theorem C5_new_artifact_rollback (db : DBState) (file : FileHeader) (userID : Nat)
    (fileMD5 : String) (dims : Option (Int × Int)) (newUUID : String)
    (targets : List Nat) (backendsTable : List Backend)
    (manager : Nat → Option Uploader) (ur : Nat → Option String)
    (locCreateOK : Bool) (hwf : db.wf)
    (hNew : db.images.find? (fun i => i.md5 == fileMD5) = none) :
    ((∀ b ∈ resolveBackends backendsTable targets, ur b.id = none) →
      resolveBackends backendsTable targets ≠ [] →
      (UploadImage db file userID fileMD5 dims newUUID targets backendsTable manager
          ur locCreateOK).result = .error "upload failed on all active backends" ∧
      (UploadImage db file userID fileMD5 dims newUUID targets backendsTable manager
          ur locCreateOK).db.images = db.images ∧
      (UploadImage db file userID fileMD5 dims newUUID targets backendsTable manager
          ur locCreateOK).db.locations = db.locations) ∧
    (∀ img,
      (UploadImage db file userID fileMD5 dims newUUID targets backendsTable manager
          ur locCreateOK).result = .ok img →
      img ∈ (UploadImage db file userID fileMD5 dims newUUID targets backendsTable
          manager ur locCreateOK).db.images ∧
      locsOf (UploadImage db file userID fileMD5 dims newUUID targets backendsTable
          manager ur locCreateOK).db img.id ≠ []) := by
  have hNoOwn : db.images.find?
      (fun i => i.md5 == fileMD5 && i.userID == userID) = none := by
    rw [List.find?_eq_none] at hNew ⊢
    intro x hx h
    exact hNew x hx ((Bool.and_eq_true _ _).mp h).1
  have hstep : UploadImage db file userID fileMD5 dims newUUID targets backendsTable
      manager ur locCreateOK =
      handleNewImage db file userID fileMD5 dims targets backendsTable newUUID
        manager ur := by
    simp only [UploadImage, hNoOwn, hNew]
  rw [hstep]
  constructor
  · intro hfail hact
    have hactb : (resolveBackends backendsTable targets).isEmpty = false := by
      simpa [List.isEmpty_iff] using hact
    have hr1 : (distributeToBackends
        { db with
          images := db.images ++ [newImageFor db file userID fileMD5 dims newUUID],
          nextImageID := db.nextImageID + 1 }
        (newImageFor db file userID fileMD5 dims newUUID).id
        (resolveBackends backendsTable targets) manager ur).1 =
        { db with
          images := db.images ++ [newImageFor db file userID fileMD5 dims newUUID],
          nextImageID := db.nextImageID + 1 } :=
      distribute_state_eq_of_all_fail _ _ _ _ _ hfail
    have hlocnil : locsOf
        { db with
          images := db.images ++ [newImageFor db file userID fileMD5 dims newUUID],
          nextImageID := db.nextImageID + 1 }
        (newImageFor db file userID fileMD5 dims newUUID).id = [] :=
      locsOf_next_eq_nil db hwf
    simp only [handleNewImage, hactb, Bool.false_eq_true, if_false, hr1, hlocnil,
      List.isEmpty_nil, if_true]
    refine ⟨by trivial, ?_, by trivial⟩
    show (db.images ++ [newImageFor db file userID fileMD5 dims newUUID]).filter
      (fun i => i.id != (newImageFor db file userID fileMD5 dims newUUID).id)
      = db.images
    rw [List.filter_append]
    have h1 : db.images.filter (fun i =>
        i.id != (newImageFor db file userID fileMD5 dims newUUID).id) = db.images :=
      List.filter_eq_self.mpr (fun i hi => by
        have := hwf.1 i hi
        simp only [bne_iff_ne, ne_eq]
        show ¬ i.id = db.nextImageID
        omega)
    have h2 : ([newImageFor db file userID fileMD5 dims newUUID] : List Image).filter
        (fun i => i.id != (newImageFor db file userID fileMD5 dims newUUID).id)
        = [] := by
      simp
    rw [h1, h2, List.append_nil]
  · intro img hok
    by_cases hact0 : (resolveBackends backendsTable targets).isEmpty = true
    · simp only [handleNewImage, hact0, if_true] at hok
      cases hok
    · have hactb : (resolveBackends backendsTable targets).isEmpty = false := by
        simpa using hact0
      simp only [handleNewImage, hactb, Bool.false_eq_true, if_false] at hok ⊢
      by_cases hloc : (locsOf (distributeToBackends
          { db with
            images := db.images ++ [newImageFor db file userID fileMD5 dims newUUID],
            nextImageID := db.nextImageID + 1 }
          (newImageFor db file userID fileMD5 dims newUUID).id
          (resolveBackends backendsTable targets) manager ur).1
          (newImageFor db file userID fileMD5 dims newUUID).id).isEmpty = true
      · simp only [hloc, if_true] at hok
        cases hok
      · have hlocf : (locsOf (distributeToBackends
            { db with
              images := db.images ++ [newImageFor db file userID fileMD5 dims newUUID],
              nextImageID := db.nextImageID + 1 }
            (newImageFor db file userID fileMD5 dims newUUID).id
            (resolveBackends backendsTable targets) manager ur).1
            (newImageFor db file userID fileMD5 dims newUUID).id).isEmpty = false := by
          simpa using hloc
        simp only [hlocf, Bool.false_eq_true, if_false] at hok ⊢
        injection hok with himg
        subst himg
        constructor
        · rw [distribute_images_eq]
          exact List.mem_append.mpr (Or.inr (List.mem_cons_self _ _))
        · intro h0
          rw [h0] at hlocf
          cases hlocf

/-- Witness for C5 at a concrete empty database with one target backend whose
upload fails. -/
theorem C5_new_artifact_rollback_witness :
    ((∀ b ∈ resolveBackends [⟨1, "A", "local", 1, true, true⟩] [],
        (fun _ : Nat => (none : Option String)) b.id = none) →
      resolveBackends [⟨1, "A", "local", 1, true, true⟩] [] ≠ [] →
      (UploadImage ⟨[], [], 1, 1⟩ ⟨"cat.png", 100, "image/png"⟩ 1 "abc123"
          (some (2, 3)) "uuid-1" [] [⟨1, "A", "local", 1, true, true⟩]
          (fun _ => some ⟨"local"⟩) (fun _ => none) true).result =
        .error "upload failed on all active backends" ∧
      (UploadImage ⟨[], [], 1, 1⟩ ⟨"cat.png", 100, "image/png"⟩ 1 "abc123"
          (some (2, 3)) "uuid-1" [] [⟨1, "A", "local", 1, true, true⟩]
          (fun _ => some ⟨"local"⟩) (fun _ => none) true).db.images = [] ∧
      (UploadImage ⟨[], [], 1, 1⟩ ⟨"cat.png", 100, "image/png"⟩ 1 "abc123"
          (some (2, 3)) "uuid-1" [] [⟨1, "A", "local", 1, true, true⟩]
          (fun _ => some ⟨"local"⟩) (fun _ => none) true).db.locations = []) ∧
    (∀ img,
      (UploadImage ⟨[], [], 1, 1⟩ ⟨"cat.png", 100, "image/png"⟩ 1 "abc123"
          (some (2, 3)) "uuid-1" [] [⟨1, "A", "local", 1, true, true⟩]
          (fun _ => some ⟨"local"⟩) (fun _ => none) true).result = .ok img →
      img ∈ (UploadImage ⟨[], [], 1, 1⟩ ⟨"cat.png", 100, "image/png"⟩ 1 "abc123"
          (some (2, 3)) "uuid-1" [] [⟨1, "A", "local", 1, true, true⟩]
          (fun _ => some ⟨"local"⟩) (fun _ => none) true).db.images ∧
      locsOf (UploadImage ⟨[], [], 1, 1⟩ ⟨"cat.png", 100, "image/png"⟩ 1 "abc123"
          (some (2, 3)) "uuid-1" [] [⟨1, "A", "local", 1, true, true⟩]
          (fun _ => some ⟨"local"⟩) (fun _ => none) true).db img.id ≠ []) :=
  C5_new_artifact_rollback ⟨[], [], 1, 1⟩ ⟨"cat.png", 100, "image/png"⟩ 1 "abc123"
    (some (2, 3)) "uuid-1" [] [⟨1, "A", "local", 1, true, true⟩]
    (fun _ => some ⟨"local"⟩) (fun _ => none) true (by decide) (by decide)

theorem filterMap_manager_eq_map (m : Nat → Option Uploader)
    (locs : List StorageLocation)
    (h : ∀ l ∈ locs, (m l.backendID).isSome) :
    locs.filterMap (fun loc =>
        (m loc.backendID).map (fun _ => (loc.backendID, deleteIdentifierFor loc))) =
      locs.map (fun loc => (loc.backendID, deleteIdentifierFor loc)) := by
  induction locs with
  | nil => rfl
  | cons a rest ih =>
    have ha := h a (List.mem_cons_self a rest)
    cases hm : m a.backendID with
    | none => rw [hm] at ha; simp at ha
    | some u =>
      simp [List.filterMap_cons, hm, ih (fun x hx => h x (List.mem_cons_of_mem a hx))]

/-! ## C4 -/

/-- C4: `DeleteImage` issues physical deletions if and only if no other
Image row in the system shares the deleted image's content hash: when the
deleted row is the last reference to the hash, a physical deletion is issued
for every location of the image (on each backend with a registered
uploader); when another row with the same hash remains, no physical deletion
is issued; in both cases the image's metadata row and all its location rows
are removed. -/
theorem C4_delete_physical_iff_last_reference (db : DBState) (imageUUID : String)
    (userID : Nat) (userRole : String) (manager : Nat → Option Uploader)
    (image : Image)
    (hFound : db.images.find? (fun i =>
      i.uuid == imageUUID && (userRole == "admin" || i.userID == userID)) = some image)
    (hMgr : ∀ l ∈ locsOf db image.id, (manager l.backendID).isSome) :
    (DeleteImage db imageUUID userID userRole manager).2.2 = .ok () ∧
    (db.images.filter (fun i => i.md5 == image.md5 && i.id != image.id) = [] →
      (DeleteImage db imageUUID userID userRole manager).2.1 =
        (locsOf db image.id).map (fun l => (l.backendID, deleteIdentifierFor l))) ∧
    (db.images.filter (fun i => i.md5 == image.md5 && i.id != image.id) ≠ [] →
      (DeleteImage db imageUUID userID userRole manager).2.1 = []) ∧
    (DeleteImage db imageUUID userID userRole manager).1.images =
      db.images.filter (fun i => i.id != image.id) ∧
    (DeleteImage db imageUUID userID userRole manager).1.locations =
      db.locations.filter (fun l => l.imageID != image.id) := by
  refine ⟨?_, ?_, ?_, ?_, ?_⟩
  · simp only [DeleteImage, hFound]
  · intro h0
    simp only [DeleteImage, hFound]
    rw [h0]
    simp only [List.length_nil, Nat.zero_eq, beq_self_eq_true, if_true]
    exact filterMap_manager_eq_map manager (locsOf db image.id) hMgr
  · intro h0
    simp only [DeleteImage, hFound]
    have hlen : ((db.images.filter
        (fun i => i.md5 == image.md5 && i.id != image.id)).length == 0) = false := by
      simp only [beq_eq_false_iff_ne, ne_eq, List.length_eq_zero]
      exact h0
    simp only [hlen, Bool.false_eq_true, if_false]
  · simp only [DeleteImage, hFound]
  · simp only [DeleteImage, hFound]

/-- Witness for C4: owner 1 deletes its only image; no other row shares the
hash, so a physical deletion is issued for each of its two locations. -/
theorem C4_delete_physical_iff_last_reference_witness :
    (DeleteImage
        ⟨[⟨1, "uuid-1", "abc123", "cat.png", 100, "image/png", 0, 0, false, 1⟩],
         [⟨1, 1, 1, "local", "/uploads/uuid-1.png", "", true, 0⟩,
          ⟨2, 1, 3, "oss", "https://h/up/x.png", "up/x.png", true, 0⟩], 2, 3⟩
        "uuid-1" 1 "user"
        (fun i => if i == 1 then some ⟨"local"⟩ else
          if i == 3 then some ⟨"oss"⟩ else none)).2.2 = .ok () ∧
    (([(⟨1, "uuid-1", "abc123", "cat.png", 100, "image/png", 0, 0, false, 1⟩ :
        Image)].filter (fun i => i.md5 == "abc123" && i.id != 1) = []) →
      (DeleteImage
        ⟨[⟨1, "uuid-1", "abc123", "cat.png", 100, "image/png", 0, 0, false, 1⟩],
         [⟨1, 1, 1, "local", "/uploads/uuid-1.png", "", true, 0⟩,
          ⟨2, 1, 3, "oss", "https://h/up/x.png", "up/x.png", true, 0⟩], 2, 3⟩
        "uuid-1" 1 "user"
        (fun i => if i == 1 then some ⟨"local"⟩ else
          if i == 3 then some ⟨"oss"⟩ else none)).2.1 =
        (locsOf
          ⟨[⟨1, "uuid-1", "abc123", "cat.png", 100, "image/png", 0, 0, false, 1⟩],
           [⟨1, 1, 1, "local", "/uploads/uuid-1.png", "", true, 0⟩,
            ⟨2, 1, 3, "oss", "https://h/up/x.png", "up/x.png", true, 0⟩], 2, 3⟩
          1).map (fun l => (l.backendID, deleteIdentifierFor l))) ∧
    (([(⟨1, "uuid-1", "abc123", "cat.png", 100, "image/png", 0, 0, false, 1⟩ :
        Image)].filter (fun i => i.md5 == "abc123" && i.id != 1) ≠ []) →
      (DeleteImage
        ⟨[⟨1, "uuid-1", "abc123", "cat.png", 100, "image/png", 0, 0, false, 1⟩],
         [⟨1, 1, 1, "local", "/uploads/uuid-1.png", "", true, 0⟩,
          ⟨2, 1, 3, "oss", "https://h/up/x.png", "up/x.png", true, 0⟩], 2, 3⟩
        "uuid-1" 1 "user"
        (fun i => if i == 1 then some ⟨"local"⟩ else
          if i == 3 then some ⟨"oss"⟩ else none)).2.1 = []) ∧
    (DeleteImage
        ⟨[⟨1, "uuid-1", "abc123", "cat.png", 100, "image/png", 0, 0, false, 1⟩],
         [⟨1, 1, 1, "local", "/uploads/uuid-1.png", "", true, 0⟩,
          ⟨2, 1, 3, "oss", "https://h/up/x.png", "up/x.png", true, 0⟩], 2, 3⟩
        "uuid-1" 1 "user"
        (fun i => if i == 1 then some ⟨"local"⟩ else
          if i == 3 then some ⟨"oss"⟩ else none)).1.images =
      [(⟨1, "uuid-1", "abc123", "cat.png", 100, "image/png", 0, 0, false, 1⟩ :
        Image)].filter (fun i => i.id != 1) ∧
    (DeleteImage
        ⟨[⟨1, "uuid-1", "abc123", "cat.png", 100, "image/png", 0, 0, false, 1⟩],
         [⟨1, 1, 1, "local", "/uploads/uuid-1.png", "", true, 0⟩,
          ⟨2, 1, 3, "oss", "https://h/up/x.png", "up/x.png", true, 0⟩], 2, 3⟩
        "uuid-1" 1 "user"
        (fun i => if i == 1 then some ⟨"local"⟩ else
          if i == 3 then some ⟨"oss"⟩ else none)).1.locations =
      ([⟨1, 1, 1, "local", "/uploads/uuid-1.png", "", true, 0⟩,
        ⟨2, 1, 3, "oss", "https://h/up/x.png", "up/x.png", true, 0⟩] :
          List StorageLocation).filter (fun l => l.imageID != 1) :=
  C4_delete_physical_iff_last_reference
    ⟨[⟨1, "uuid-1", "abc123", "cat.png", 100, "image/png", 0, 0, false, 1⟩],
     [⟨1, 1, 1, "local", "/uploads/uuid-1.png", "", true, 0⟩,
      ⟨2, 1, 3, "oss", "https://h/up/x.png", "up/x.png", true, 0⟩], 2, 3⟩
    "uuid-1" 1 "user"
    (fun i => if i == 1 then some ⟨"local"⟩ else
      if i == 3 then some ⟨"oss"⟩ else none)
    ⟨1, "uuid-1", "abc123", "cat.png", 100, "image/png", 0, 0, false, 1⟩
    (by decide) (by decide)

end Imgbed
